import Mathlib

/-!
Verification development for the `seo-workflow` repository's workflow
execution engine (`src/claude_workflow_orchestrator.py`, with the
UI-normalization loop of `src/workflow-orchestrator.py`).

The Python code is shallowly embedded: Python dicts become insertion-ordered
association lists (`List (String × Val)`) with Python's `d[k] = v`,
`d.update(...)`, `d.copy()` and `list(d.keys())` semantics; JSON-compatible
values become the inductive `Val`; wall-clock times (`time.time()` deltas)
and timestamps (`datetime.now().isoformat()`) are supplied as explicit
parameters (`stepTime`, `stepStamp`); `raise` becomes `Except`.  A second,
heap-based embedding (addresses plus shallow copies) appears further down to
settle the aliasing/frame claim about the caller's initial-data object.
-/

namespace SeoWorkflow

/-- A JSON-compatible Python value: strings, numbers (modelled exactly as
rationals), booleans, lists and (insertion-ordered) dicts. -/
inductive Val where
  | str : String → Val
  | num : ℚ → Val
  | bool : Bool → Val
  | list : List Val → Val
  | dict : List (String × Val) → Val

/-- A Python dict with string keys: an insertion-ordered association list. -/
abbrev Dict := List (String × Val)

namespace PyDict

variable {α : Type*}

/-- Python `d[k]` / `d.get(k)`: the value at the first matching key. -/
def get? : List (String × α) → String → Option α
  | [], _ => none
  | (k', v) :: rest, k => if k' = k then some v else get? rest k

/-- Python `d.get(k, v₀)`. -/
def getD (d : List (String × α)) (k : String) (v₀ : α) : α :=
  (get? d k).getD v₀

/-- Python `k in d`. -/
def hasKey (d : List (String × α)) (k : String) : Bool :=
  (get? d k).isSome

/-- Python `d[k] = v`: replace the value at the key's existing position,
else append the new binding at the end. -/
def set : List (String × α) → String → α → List (String × α)
  | [], k, v => [(k, v)]
  | (k', v') :: rest, k, v =>
    if k' = k then (k, v) :: rest else (k', v') :: set rest k v

/-- Python `d.update(other)`: `d[k] = v` for every item of `other`, in
`other`'s iteration order. -/
def updateWith (d other : List (String × α)) : List (String × α) :=
  other.foldl (fun acc p => set acc p.1 p.2) d

/-- Python `list(d.keys())`. -/
def keys (d : List (String × α)) : List String :=
  d.map Prod.fst

end PyDict

/-- Whether `pat` occurs in the haystack at some position. -/
def strContainsAux (pat : List Char) : List Char → Bool
  | [] => pat.isEmpty
  | c :: rest => pat.isPrefixOf (c :: rest) || strContainsAux pat rest

/-- Python's substring test `pat in s`. -/
def strContains (s pat : String) : Bool :=
  strContainsAux pat.toList s.toList

/-- Python `s.lower()` (character-wise; the engine's prompts are ASCII, on
which this agrees with Python's Unicode-aware lowercasing). -/
def strLower (s : String) : String :=
  String.mk (s.data.map Char.toLower)

/-- Python `s.startswith(pre)`. -/
def pyStartsWith (s pre : String) : Bool :=
  pre.data.isPrefixOf s.data

/-- Rendering of a model-level number, used only inside prompt text.  The
engine's own numbers are integers or exact step durations; a non-integral
rational is rendered as `num/den` (an explicit stand-in for Python's float
rendering, immaterial to every property proved here). -/
def ratStr (q : ℚ) : String :=
  if q.den = 1 then toString q.num else toString q.num ++ "/" ++ toString q.den

/-- Python `f"{value}"` for the scalar values that
`_format_input_for_step` renders outside `json.dumps`. -/
def pyStr : Val → String
  | .str s => s
  | .num q => ratStr q
  | .bool b => if b then "True" else "False"
  | .list _ => ""
  | .dict _ => ""

/-- Two spaces per indentation level, as `json.dumps(value, indent=2)`. -/
def indentStr (lvl : Nat) : String :=
  String.mk (List.replicate (2 * lvl) ' ')

/-- JSON string escaping for `json.dumps` (the characters that can occur in
this engine's data). -/
def jsonEscape (s : String) : String :=
  String.join (s.toList.map fun c =>
    if c = '"' then "\\\""
    else if c = '\\' then "\\\\"
    else if c = '\n' then "\\n"
    else String.mk [c])

mutual

/-- Python `json.dumps(value, indent=2)`, as `_format_input_for_step`
applies it to nested dict/list values. -/
def jsonDumps : Val → Nat → String
  | .str s, _ => "\"" ++ jsonEscape s ++ "\""
  | .num q, _ => ratStr q
  | .bool b, _ => if b then "true" else "false"
  | .list [], _ => "[]"
  | .list (v :: vs), lvl =>
    "[\n" ++ jsonDumpsItems (v :: vs) (lvl + 1) ++ "\n" ++ indentStr lvl ++ "]"
  | .dict [], _ => "\x7b\x7d"
  | .dict (p :: ps), lvl =>
    "\x7b\n" ++ jsonDumpsEntries (p :: ps) (lvl + 1) ++ "\n" ++ indentStr lvl ++ "\x7d"
termination_by structural v => v

/-- The comma-separated items of a JSON array. -/
def jsonDumpsItems : List Val → Nat → String
  | [], _ => ""
  | [v], lvl => indentStr lvl ++ jsonDumps v lvl
  | v :: v' :: vs, lvl =>
    indentStr lvl ++ jsonDumps v lvl ++ ",\n" ++ jsonDumpsItems (v' :: vs) lvl
termination_by structural l => l

/-- The comma-separated entries of a JSON object. -/
def jsonDumpsEntries : List (String × Val) → Nat → String
  | [], _ => ""
  | [(k, v)], lvl => indentStr lvl ++ "\"" ++ jsonEscape k ++ "\": " ++ jsonDumps v lvl
  | (k, v) :: p :: ps, lvl =>
    indentStr lvl ++ "\"" ++ jsonEscape k ++ "\": " ++ jsonDumps v lvl ++ ",\n" ++
      jsonDumpsEntries (p :: ps) lvl
termination_by structural l => l

end

/-- `CLAUDE_MODEL`'s default value (no `.env` override modelled). -/
def CLAUDE_MODEL : String := "claude-3-opus-20240229"

/-- One entry of `self.workflow_templates`. -/
structure WorkflowInfo where
  description : String
  steps : List String
deriving DecidableEq

/-- The four default workflow templates, in their source order. -/
def workflow_templates : List (String × WorkflowInfo) :=
  [("content_strategy",
    ⟨"Develop a comprehensive content strategy based on keyword research and content gap analysis",
     ["keyword_research", "content_gap_analysis", "seo_strategy"]⟩),
   ("content_creation",
    ⟨"Create high-quality, SEO-optimized content based on keyword research and a detailed content brief",
     ["keyword_research", "content_brief", "content_writer"]⟩),
   ("technical_audit",
    ⟨"Perform a technical SEO audit to identify issues and opportunities for improvement",
     ["technical_seo", "seo_strategy"]⟩),
   ("full_seo_analysis",
    ⟨"Comprehensive SEO analysis including keyword research, content gaps, and technical recommendations",
     ["keyword_research", "content_gap_analysis", "technical_seo", "seo_strategy"]⟩)]

/-- `list(self.workflow_templates.keys())`. -/
def workflowNames : List String :=
  workflow_templates.map Prod.fst

/-- `_create_system_prompt_for_step`: the static per-step system prompt. -/
def createSystemPromptForStep (step : String) : String :=
  let base_prompt := "You are an expert SEO agent specialized in providing structured analysis and recommendations.
Your task is to analyze the provided input data and generate insights and recommendations.
Always provide your response in a structured JSON format with at least 'analysis' and 'recommendations' fields."
  if step = "keyword_research" then
    base_prompt ++ "
You specialize in discovering valuable keywords for SEO campaigns based on user input, industry trends, search behavior, and underlying search intent.

Follow these steps:
1. Analyze the provided target topic, industry, website, or business objective
2. Identify primary and secondary keywords that would be valuable targets
3. Evaluate search volume, competition, difficulty, and user intent for each keyword
4. Group keywords into semantic clusters and topic clusters
5. Prioritize keywords based on potential ROI, relevance, intent match, and conversion potential
6. Consider the full search journey across the marketing funnel
7. Provide clear reasoning behind keyword selections and groupings
8. Return a structured analysis with keyword recommendations"
  else if step = "content_brief" then
    base_prompt ++ "
You specialize in creating comprehensive content briefs for SEO-optimized articles that address user intent and exceed search engines' expectations.

Follow these steps:
1. Analyze the target keyword and thoroughly understand the underlying search intent
2. Research top-ranking content for the keyword to identify patterns and gaps
3. Identify key topics, questions, subtopics, and semantic entities to cover
4. Suggest compelling title options, meta descriptions, and logical heading structure
5. Recommend content length, format, media inclusions, and internal linking strategy
6. Outline specific sections that should be included with rationale for each
7. Consider E-E-A-T (Experience, Expertise, Authoritativeness, Trustworthiness) factors
8. Explain how the content should address different phases of the user journey
9. Return a detailed, structured content brief for writers with clear strategic direction"
  else if step = "content_writer" then
    base_prompt ++ "
You specialize in writing high-quality, SEO-optimized content that reads naturally and engages human readers while satisfying search intent.

Follow these steps:
1. Analyze the provided content brief thoroughly
2. Create engaging, informative content that matches search intent and sounds completely natural
3. Properly incorporate primary and secondary keywords in a way that flows naturally
4. Structure content with appropriate headings and subheadings to improve readability
5. Include relevant examples, data points, stories, and supportive information
6. Write with a consistent, appropriate tone that matches the target audience
7. Incorporate elements that enhance E-E-A-T signals throughout the content
8. Add appropriate transitional elements between sections for improved flow
9. Return a complete, publishing-ready article that requires minimal editing"
  else if step = "technical_seo" then
    base_prompt ++ "
You specialize in identifying technical SEO issues and providing recommendations for fixes with clear explanations of impact and importance.

Follow these steps:
1. Analyze the provided technical data for a website
2. Identify critical technical SEO issues and prioritize them by impact
3. Evaluate page speed, mobile-friendliness, and core web vitals
4. Check for crawlability and indexation problems
5. Assess structured data implementation and opportunities
6. Evaluate site architecture and internal linking structure
7. Examine URL structure, redirects, and status code issues
8. Analyze international SEO considerations if applicable
9. Provide detailed explanations of why each issue matters
10. Include specific implementation guidance for fixing issues
11. Return a structured analysis with technical recommendations and prioritization"
  else if step = "content_gap_analysis" then
    base_prompt ++ "
You specialize in identifying content gaps and opportunities by analyzing competitor content and user needs.

Follow these steps:
1. Analyze the current content inventory of the website
2. Research competitor content for the target keywords and topics
3. Identify topics, questions, and content types that competitors cover but the client doesn't
4. Discover unaddressed user needs and questions related to the topic
5. Evaluate content depth, breadth, and comprehensiveness compared to top-ranking pages
6. Recommend specific content pieces to create with clear justification
7. Suggest improvements to existing content based on competitive analysis
8. Prioritize content opportunities based on potential impact and effort
9. Return a structured content gap analysis with actionable recommendations"
  else if step = "seo_strategy" then
    base_prompt ++ "
You specialize in developing comprehensive SEO strategies tailored to business goals and market conditions.

Follow these steps:
1. Analyze the business goals, target audience, and competitive landscape
2. Evaluate current SEO performance and identify strengths and weaknesses
3. Develop a comprehensive SEO strategy aligned with business objectives
4. Create a prioritized roadmap of tactical SEO initiatives
5. Recommend specific KPIs and success metrics for the strategy
6. Consider resources required and potential ROI for recommendations
7. Include content, technical, and off-page strategic elements
8. Account for industry trends and search engine algorithm considerations
9. Return a structured SEO strategy with clear rationale and implementation guidance"
  else
    base_prompt

/-- `_format_input_for_step`: serializes the current context into the user
prompt (nested dict/list values through `json.dumps(..., indent=2)`,
scalars as plain text) and appends the step's closing instruction. -/
def formatInputForStep (step : String) (input_data : Dict) : String :=
  let formatted_input := "Input data for " ++ step ++ " analysis:\n\n"
  let formatted_input := input_data.foldl (fun acc p =>
    match p.2 with
    | Val.dict _ => acc ++ p.1 ++ ": " ++ jsonDumps p.2 0 ++ "\n\n"
    | Val.list _ => acc ++ p.1 ++ ": " ++ jsonDumps p.2 0 ++ "\n\n"
    | v => acc ++ p.1 ++ ": " ++ pyStr v ++ "\n\n") formatted_input
  if step = "keyword_research" then
    formatted_input ++ "
Please analyze this data and identify valuable target keywords.
Group them by search intent and provide recommendations for prioritization.
Return your analysis in JSON format with 'analysis' and 'recommendations' fields.
"
  else if step = "content_brief" then
    formatted_input ++ "
Please create a comprehensive content brief based on this data.
Include title options, content structure, key points to cover, and guidelines for tone and style.
Return your analysis in JSON format with 'analysis' and 'recommendations' fields.
"
  else if step = "content_writer" then
    formatted_input ++ "
Please write SEO-optimized content based on this data and any content brief provided.
The content should be engaging, informative, and aligned with search intent.
Return your content in JSON format with 'analysis' and 'content' fields.
"
  else if step = "technical_seo" then
    formatted_input ++ "
Please analyze this data for technical SEO issues and opportunities.
Identify critical issues, prioritize them by impact, and provide implementation guidance.
Return your analysis in JSON format with 'analysis', 'recommendations', and 'issues' fields.
"
  else if step = "content_gap_analysis" then
    formatted_input ++ "
Please analyze this data to identify content gaps and opportunities.
Compare against competitors, identify unaddressed user needs, and suggest new content.
Return your analysis in JSON format with 'analysis', 'recommendations', and 'content_opportunities' fields.
"
  else if step = "seo_strategy" then
    formatted_input ++ "
Please develop a comprehensive SEO strategy based on this data.
Include short-term and long-term goals, tactical initiatives, and KPIs.
Return your strategy in JSON format with 'analysis', 'recommendations', and 'priority_actions' fields.
"
  else
    formatted_input ++ "
Please analyze this data and provide insights and recommendations.
Return your analysis in JSON format with 'analysis' and 'recommendations' fields.
"

/-- The `_api_info` metadata record appended to every mock response. -/
def mockApiInfo : Val :=
  Val.dict [("model", Val.str CLAUDE_MODEL),
            ("version", Val.str "mock"),
            ("mock_data", Val.bool true)]

/-- `_generate_mock_response`: the deterministic offline responder, keyed on
the lowercased prompt text, with the five canned records and the generic
fallback, plus the `mock_data = True` metadata. -/
def generateMockResponse (prompt : String) (_system_prompt : String) : Dict :=
  let p := strLower prompt
  let mock_response : Dict :=
    if strContains p "keyword" || strContains p "keywords" then
      [("analysis", Val.str "Analyzed target keywords for potential search traffic and user intent."),
       ("recommendations", Val.list
         [Val.str "Focus on long-tail keywords with lower competition",
          Val.str "Include semantic variants in your content",
          Val.str "Target question-based keywords for featured snippets"]),
       ("keyword_groups", Val.dict
         [("high_intent", Val.list [Val.str "buy online", Val.str "best price", Val.str "near me"]),
          ("informational", Val.list [Val.str "how to", Val.str "guide", Val.str "tutorial"])])]
    else if strContains p "content" && strContains p "brief" then
      [("analysis", Val.str "Created a comprehensive content brief based on target keywords and competitor analysis."),
       ("recommendations", Val.list
         [Val.str "Structure content with clear H2 and H3 headings",
          Val.str "Include FAQ section to target question-based searches",
          Val.str "Add data visualizations to improve engagement"]),
       ("content_structure", Val.dict
         [("title_options", Val.list
            [Val.str "Complete Guide to [Topic]",
             Val.str "How to [Achieve Goal] with [Topic]"]),
          ("sections", Val.list
            [Val.str "Introduction",
             Val.str "What is [Topic]",
             Val.str "Benefits of [Topic]",
             Val.str "How to Get Started",
             Val.str "Common Challenges",
             Val.str "Best Practices",
             Val.str "Conclusion"])])]
    else if strContains p "technical" || strContains p "audit" then
      [("analysis", Val.str "Performed a technical SEO audit to identify issues affecting performance and crawlability."),
       ("recommendations", Val.list
         [Val.str "Fix broken links and redirect chains",
          Val.str "Optimize image sizes and implement lazy loading",
          Val.str "Implement schema markup for rich snippets"]),
       ("issues", Val.dict
         [("critical", Val.list
            [Val.str "Slow page speed on mobile devices",
             Val.str "Missing meta descriptions on 12 pages",
             Val.str "Duplicate content on product variations"]),
          ("warning", Val.list
            [Val.str "Non-optimized images",
             Val.str "Missing alt text on 8 images",
             Val.str "Shallow content on category pages"])])]
    else if strContains p "gap" || strContains p "competitor" then
      [("analysis", Val.str "Identified content gaps by analyzing competitor content and user search behavior."),
       ("recommendations", Val.list
         [Val.str "Create content addressing user questions not currently covered",
          Val.str "Expand content on high-value topics with limited current coverage",
          Val.str "Update outdated content with fresh information and statistics"]),
       ("content_opportunities", Val.list
         [Val.str "Beginner's guide to [Topic]",
          Val.str "Comparison of [Topic] vs alternatives",
          Val.str "Case studies showing results from [Topic]"])]
    else if strContains p "strategy" then
      [("analysis", Val.str "Developed a comprehensive SEO strategy based on all available data and insights."),
       ("recommendations", Val.list
         [Val.str "Prioritize technical fixes with highest impact on crawlability",
          Val.str "Create content calendar focused on identified gaps",
          Val.str "Implement structured data to enhance SERP visibility"]),
       ("priority_actions", Val.list
         [Val.str "Fix critical technical issues within 2 weeks",
          Val.str "Produce 3 cornerstone content pieces within 1 month",
          Val.str "Optimize top 10 existing pages for improved conversions"])]
    else
      [("analysis", Val.str "Processed the input data and generated insights."),
       ("recommendations", Val.list
         [Val.str "Follow best practices for on-page SEO",
          Val.str "Improve content quality and relevance",
          Val.str "Focus on user experience metrics"])]
  PyDict.set mock_response "_api_info" mockApiInfo

/-- The live API client abstraction (`api_client.ClaudeAPIClient`): the raw
transport `call_api` (which may raise — modelled as `Except` with the
exception message) and `parse_response_content` (the best-effort
text-to-structure parse), both capabilities the engine consumes.  The spec
treats the transport itself as an external collaborator. -/
structure ApiClient where
  callApi : String → String → Except String Dict
  parseResponseContent : String → Dict

/-- The orchestrator's configuration state set by `__init__`: `api_mode` and
the optional `api_client`. -/
structure EngineCfg where
  api_mode : String
  api_client : Option ApiClient

/-- `__init__`'s client selection: a live client exactly when
`api_mode == "live"` and a non-empty key was supplied. -/
def mkOrchestrator (api_mode api_key : String) (mkClient : String → ApiClient) : EngineCfg :=
  if api_mode = "live" ∧ api_key ≠ "" then ⟨api_mode, some (mkClient api_key)⟩
  else ⟨api_mode, none⟩

/-- `call_claude_api`: mock path when not live or no client; otherwise call
the client, parse on success, and fall back to the mock response when the
call raises or the response lacks a (string) `content` field. -/
def callClaudeApi (eng : EngineCfg) (prompt system_prompt : String) : Dict :=
  if eng.api_mode ≠ "live" ∨ eng.api_client.isNone then
    generateMockResponse prompt system_prompt
  else
    match eng.api_client with
    | none => generateMockResponse prompt system_prompt
    | some client =>
      match client.callApi prompt system_prompt with
      | Except.error _ => generateMockResponse prompt system_prompt
      | Except.ok api_response =>
        match PyDict.get? api_response "content" with
        | some (Val.str content) =>
          let structured_response := client.parseResponseContent content
          PyDict.set structured_response "_api_info"
            (Val.dict [("model", PyDict.getD api_response "model" (Val.str CLAUDE_MODEL)),
                       ("version", PyDict.getD api_response "api_version" (Val.str "unknown")),
                       ("mock_data", Val.bool false)])
        | some _ => generateMockResponse prompt system_prompt
        | none => generateMockResponse prompt system_prompt

/-- The Python exceptions `run_workflow` can raise: the `ValueError` for an
unknown workflow type (with the message's data: the bad name and the list
of available workflows), and the `KeyError`/`TypeError` family raised when
`result["execution_summary"]` is missing or not shaped as the engine
expects while it appends to the log or writes the totals. -/
inductive PyErr where
  | unknownWorkflowType : String → List String → PyErr
  | executionSummaryAccessError : PyErr
  | recursionError : PyErr
deriving DecidableEq

/-- `result["execution_summary"]["execution_log"].append(entry)`. -/
def appendLogEntry (result : Dict) (entry : Val) : Except PyErr Dict :=
  match PyDict.get? result "execution_summary" with
  | some (Val.dict es) =>
    match PyDict.get? es "execution_log" with
    | some (Val.list l) =>
      Except.ok (PyDict.set result "execution_summary"
        (Val.dict (PyDict.set es "execution_log" (Val.list (l ++ [entry])))))
    | _ => Except.error PyErr.executionSummaryAccessError
  | _ => Except.error PyErr.executionSummaryAccessError

/-- `result["execution_summary"][k] = v`. -/
def setSummaryField (result : Dict) (k : String) (v : Val) : Except PyErr Dict :=
  match PyDict.get? result "execution_summary" with
  | some (Val.dict es) =>
    Except.ok (PyDict.set result "execution_summary" (Val.dict (PyDict.set es k v)))
  | _ => Except.error PyErr.executionSummaryAccessError

/-- One step's output: the prompt built from the current context, then
`call_claude_api` (line 289-295 of `run_workflow`). -/
def stepOut (eng : EngineCfg) (step : String) (ctx : Dict) : Dict :=
  callClaudeApi eng (formatInputForStep step ctx) (createSystemPromptForStep step)

/-- The execution-log entry appended for one step (lines 309-315): note the
source records `input_data_keys` from `current_data` after line 306 has
already merged the step output into it. -/
def mkLogEntry (stepStamp : Nat → String) (stepTime : Nat → ℚ) (i : Nat) (step : String)
    (currentAfter out : Dict) : Val :=
  Val.dict [("timestamp", Val.str (stepStamp i)),
            ("agent", Val.str step),
            ("execution_time_seconds", Val.num (stepTime i)),
            ("input_data_keys", Val.list ((PyDict.keys currentAfter).map Val.str)),
            ("output_data_keys", Val.list ((PyDict.keys out).map Val.str))]

/-- The step loop of `run_workflow` (lines 284-315).  `stepTime i` is the
measured duration of the `i`-th executed step and `stepStamp i` its
timestamp, both supplied as parameters of the embedding. -/
def runSteps (eng : EngineCfg) (stepTime : Nat → ℚ) (stepStamp : Nat → String) :
    List String → Nat → Dict → Dict → ℚ → Except PyErr (Dict × ℚ)
  | [], _, result, _, total_time => Except.ok (result, total_time)
  | step :: rest, i, result, current_data, total_time =>
    let step_output := stepOut eng step current_data
    let step_execution_time := stepTime i
    let result := PyDict.set result ("input_" ++ step) (Val.dict current_data)
    let result := PyDict.set result ("output_" ++ step) (Val.dict step_output)
    let current_data := PyDict.updateWith current_data step_output
    Except.bind
      (appendLogEntry result (mkLogEntry stepStamp stepTime i step current_data step_output))
      (fun result =>
        runSteps eng stepTime stepStamp rest (i + 1) result current_data
          (total_time + step_execution_time))

/-- The result dict as initialized at lines 264-274, before the initial
data is merged over it. -/
def initResult (eng : EngineCfg) (workflow_type : String) (info : WorkflowInfo) : Dict :=
  [("workflow_type", Val.str workflow_type),
   ("workflow_description", Val.str info.description),
   ("api_mode", Val.str eng.api_mode),
   ("execution_summary", Val.dict
     [("total_steps_executed", Val.num info.steps.length),
      ("total_execution_time_seconds", Val.num 0),
      ("average_step_time_seconds", Val.num 0),
      ("execution_log", Val.list [])])]

/-- `run_workflow(workflow_type, initial_data)` (lines 252-322). -/
def run_workflow (eng : EngineCfg) (stepTime : Nat → ℚ) (stepStamp : Nat → String)
    (workflow_type : String) (initial_data : Dict) : Except PyErr Dict :=
  match workflow_templates.find? (fun p => p.1 = workflow_type) with
  | none => Except.error (PyErr.unknownWorkflowType workflow_type workflowNames)
  | some entry =>
    let info := entry.2
    let result := PyDict.updateWith (initResult eng workflow_type info) initial_data
    Except.bind (runSteps eng stepTime stepStamp info.steps 0 result initial_data 0) (fun p =>
      Except.bind (setSummaryField p.1 "total_execution_time_seconds" (Val.num p.2))
        (fun result =>
          if 0 < info.steps.length then
            setSummaryField result "average_step_time_seconds"
              (Val.num (p.2 / (info.steps.length : ℚ)))
          else
            Except.ok result))

/-- `run_custom_workflow(steps, initial_data)` (lines 324-340): builds the
custom `workflow_info`, but then runs `run_workflow` on the literal
pseudo-name `"custom"`, and would afterwards overwrite the description. -/
def run_custom_workflow (eng : EngineCfg) (stepTime : Nat → ℚ) (stepStamp : Nat → String)
    (steps : List String) (initial_data : Dict) : Except PyErr Dict :=
  let workflow_info : WorkflowInfo := ⟨"Custom workflow with user-selected steps", steps⟩
  match run_workflow eng stepTime stepStamp "custom" initial_data with
  | Except.error e => Except.error e
  | Except.ok custom_result =>
    Except.ok (PyDict.set custom_result "workflow_description" (Val.str workflow_info.description))

/-- The context the engine holds after executing the given step list from
`initial` (the merge of each step's output, in order): the specification
view of lines 284-306's `current_data`. -/
def runCtx (eng : EngineCfg) (initial : Dict) (steps : List String) : Dict :=
  steps.foldl (fun ctx s => PyDict.updateWith ctx (stepOut eng s ctx)) initial

/-- The sum of the step durations `stepTime i, ..., stepTime (i+n-1)`. -/
def sumTimes (stepTime : Nat → ℚ) : Nat → Nat → ℚ
  | _, 0 => 0
  | i, n + 1 => stepTime i + sumTimes stepTime (i + 1) n

/-- The execution-log entries the loop appends for the given step list,
starting at step index `i` with context `current`. -/
def logEntries (eng : EngineCfg) (stepTime : Nat → ℚ) (stepStamp : Nat → String) :
    List String → Nat → Dict → List Val
  | [], _, _ => []
  | step :: rest, i, current =>
    let out := stepOut eng step current
    let currentAfter := PyDict.updateWith current out
    mkLogEntry stepStamp stepTime i step currentAfter out ::
      logEntries eng stepTime stepStamp rest (i + 1) currentAfter

namespace WO

/-- The `for text_field in ["output", "result", "text", "content"]` loop of
`_format_for_ui` (src/workflow-orchestrator.py lines 178-181): promote the
first present alternate field to `analysis` and stop. -/
def promoteTextField (step_data : Dict) : List String → Dict
  | [] => step_data
  | f :: rest =>
    if PyDict.hasKey step_data f then
      PyDict.set step_data "analysis" (PyDict.getD step_data f (Val.str ""))
    else promoteTextField step_data rest

/-- The body of `_format_for_ui`'s UI-field loop (lines 171-194) for one
`output_`-prefixed value: dicts get `analysis` promoted or placeholdered
(only when both `analysis` and `response_text` are absent) and
`recommendations` defaulted; plain strings are wrapped; anything else is
left untouched. -/
def ensureStepFields : Val → Val
  | Val.dict step_data =>
    let step_data :=
      if ¬ PyDict.hasKey step_data "analysis" ∧ ¬ PyDict.hasKey step_data "response_text" then
        let step_data := promoteTextField step_data ["output", "result", "text", "content"]
        if ¬ PyDict.hasKey step_data "analysis" then
          PyDict.set step_data "analysis" (Val.str "No detailed analysis available for this step.")
        else step_data
      else step_data
    if ¬ PyDict.hasKey step_data "recommendations" then
      Val.dict (PyDict.set step_data "recommendations" (Val.list []))
    else Val.dict step_data
  | Val.str s => Val.dict [("analysis", Val.str s), ("recommendations", Val.list [])]
  | v => v

/-- The `for key in list(result.keys())` loop of `_format_for_ui`
(lines 170-195): apply `ensureStepFields` to every `output_`-prefixed
entry of the result document. -/
def formatOutputsForUi (result : Dict) : Dict :=
  result.map (fun p => if pyStartsWith p.1 "output_" then (p.1, ensureStepFields p.2) else p)

/-- The value `_format_for_ui`'s promotion loop leaves in `analysis` when
the record lacks both `analysis` and `response_text`: the value of the
first present field among `output`, `result`, `text`, `content`, else the
fixed placeholder string. -/
def promotedAnalysis (d : Dict) : Val :=
  match ["output", "result", "text", "content"].find? (fun f => PyDict.hasKey d f) with
  | some f => PyDict.getD d f (Val.str "")
  | none => Val.str "No detailed analysis available for this step."

end WO

/-! ### Concrete fixtures for witnesses and counterexamples -/

/-- An engine in mock mode (no client). -/
def mockEngine : EngineCfg := ⟨"mock", none⟩

/-- A constant one-second step duration. -/
def oneSec : Nat → ℚ := fun _ => 1

/-- A constant timestamp. -/
def constStamp : Nat → String := fun _ => "2026-01-01T00:00:00"

/-- A live-mode client whose every call raises. -/
def failingClient : ApiClient :=
  ⟨fun _ _ => Except.error "API request failed", fun content => [("response_text", Val.str content)]⟩

/-- A live-mode engine holding the always-failing client. -/
def liveFailingEngine : EngineCfg := ⟨"live", some failingClient⟩

/-! ### Heap-based embedding

A second embedding of `run_workflow` with explicit object identity, used to
settle the frame claim about the caller's initial-data object.  Python
dicts live in a heap of cells addressed by allocation order; a dict-valued
entry holds a reference.  `dict.copy()` copies an entry list (a shallow
copy: the references are shared), `d[k] = v` mutates the cell in place.
Python lists are inlined as values: the only aliasing the engine exercises
is dict-level. -/

/-- A Python runtime value: scalars and lists inline, dicts by reference. -/
inductive HVal where
  | str : String → HVal
  | num : ℚ → HVal
  | bool : Bool → HVal
  | list : List HVal → HVal
  | ref : Nat → HVal

/-- The entry list of one dict cell. -/
abbrev HDict := List (String × HVal)

/-- The heap: dict cells in allocation order. -/
abbrev Heap := List HDict

/-- Allocate a fresh dict cell; its address is the previous heap size. -/
def Heap.alloc (h : Heap) (d : HDict) : Heap × Nat :=
  (h ++ [d], h.length)

/-- Dereference a cell (a dangling address reads as empty; the embedding
never creates one). -/
def Heap.read (h : Heap) (a : Nat) : HDict :=
  h.getD a []

/-- Overwrite a cell in place. -/
def Heap.write (h : Heap) (a : Nat) (d : HDict) : Heap :=
  h.set a d

mutual

/-- Materialize a model-level value in the heap: dict parts (children
first, in evaluation order) become fresh cells. -/
def allocVal : Heap → Val → Heap × HVal
  | h, Val.str s => (h, HVal.str s)
  | h, Val.num q => (h, HVal.num q)
  | h, Val.bool b => (h, HVal.bool b)
  | h, Val.list l =>
    let p := allocValList h l
    (p.1, HVal.list p.2)
  | h, Val.dict d =>
    let p := allocValEntries h d
    let q := Heap.alloc p.1 p.2
    (q.1, HVal.ref q.2)
termination_by structural _h v => v

/-- Materialize every item of a list. -/
def allocValList : Heap → List Val → Heap × List HVal
  | h, [] => (h, [])
  | h, v :: vs =>
    let p := allocVal h v
    let q := allocValList p.1 vs
    (q.1, p.2 :: q.2)
termination_by structural _h l => l

/-- Materialize every entry of a dict body. -/
def allocValEntries : Heap → List (String × Val) → Heap × HDict
  | h, [] => (h, [])
  | h, (k, v) :: ps =>
    let p := allocVal h v
    let q := allocValEntries p.1 ps
    (q.1, (k, p.2) :: q.2)
termination_by structural _h l => l

end

/-- Materialize a dict value and return its fresh cell's address. -/
def allocDict (h : Heap) (d : Dict) : Heap × Nat :=
  let p := allocValEntries h d
  Heap.alloc p.1 p.2

mutual

/-- Read a runtime value back as a model-level value, dereferencing dict
cells.  `fuel` bounds the traversal (the stand-in for Python's recursion
limit: on acyclic data any sufficiently large fuel yields the full value;
a cycle always exhausts it). -/
def readVal (h : Heap) : Nat → HVal → Option Val
  | 0, _ => none
  | _ + 1, HVal.str s => some (Val.str s)
  | _ + 1, HVal.num q => some (Val.num q)
  | _ + 1, HVal.bool b => some (Val.bool b)
  | fuel + 1, HVal.list l => (readValList h fuel l).map Val.list
  | fuel + 1, HVal.ref a => (readValEntries h fuel (Heap.read h a)).map Val.dict
termination_by structural fuel _ => fuel

/-- Read back every item of a list. -/
def readValList (h : Heap) : Nat → List HVal → Option (List Val)
  | 0, _ => none
  | _ + 1, [] => some []
  | fuel + 1, v :: vs =>
    match readVal h fuel v, readValList h fuel vs with
    | some w, some ws => some (w :: ws)
    | _, _ => none
termination_by structural fuel _ => fuel

/-- Read back every entry of a dict body. -/
def readValEntries (h : Heap) : Nat → HDict → Option Dict
  | 0, _ => none
  | _ + 1, [] => some []
  | fuel + 1, (k, v) :: ps =>
    match readVal h fuel v, readValEntries h fuel ps with
    | some w, some ws => some ((k, w) :: ws)
    | _, _ => none
termination_by structural fuel _ => fuel

end

/-- One iteration of the step loop of `run_workflow` in the heap
embedding (`aRes`, `aCur` are the addresses of `result` and
`current_data`): read the current context to build the prompt, call the
executor, allocate the output, record the shallow-copied input and the
output in the result cell, merge the output into the current-context cell,
and append the freshly allocated log entry through the result cell's
`execution_summary` reference. -/
def heapStep (eng : EngineCfg) (stepTime : Nat → ℚ) (stepStamp : Nat → String)
    (fuel : Nat) (step : String) (i aRes aCur : Nat) (h : Heap) :
    (Except PyErr Unit) × Heap :=
  match readValEntries h fuel (Heap.read h aCur) with
  | none => (Except.error PyErr.recursionError, h)
  | some current_val =>
    let step_output := callClaudeApi eng (formatInputForStep step current_val)
      (createSystemPromptForStep step)
    let p := allocDict h step_output
    let h1 := p.1
    let aOut := p.2
    let q := Heap.alloc h1 (Heap.read h1 aCur)
    let h2 := q.1
    let aIn := q.2
    let h3 := Heap.write h2 aRes
      (PyDict.set (Heap.read h2 aRes) ("input_" ++ step) (HVal.ref aIn))
    let h4 := Heap.write h3 aRes
      (PyDict.set (Heap.read h3 aRes) ("output_" ++ step) (HVal.ref aOut))
    let h5 := Heap.write h4 aCur
      (PyDict.updateWith (Heap.read h4 aCur) (Heap.read h4 aOut))
    let entry : HDict :=
      [("timestamp", HVal.str (stepStamp i)),
       ("agent", HVal.str step),
       ("execution_time_seconds", HVal.num (stepTime i)),
       ("input_data_keys", HVal.list ((PyDict.keys (Heap.read h5 aCur)).map HVal.str)),
       ("output_data_keys", HVal.list ((PyDict.keys step_output).map HVal.str))]
    let r := Heap.alloc h5 entry
    let h6 := r.1
    let aEntry := r.2
    match PyDict.get? (Heap.read h6 aRes) "execution_summary" with
    | some (HVal.ref aEs) =>
      match PyDict.get? (Heap.read h6 aEs) "execution_log" with
      | some (HVal.list l) =>
        (Except.ok (), Heap.write h6 aEs
          (PyDict.set (Heap.read h6 aEs) "execution_log" (HVal.list (l ++ [HVal.ref aEntry]))))
      | _ => (Except.error PyErr.executionSummaryAccessError, h6)
    | _ => (Except.error PyErr.executionSummaryAccessError, h6)

/-- The step loop of `run_workflow` in the heap embedding: one `heapStep`
per step, the raised exception (with the partially written heap)
propagating. -/
def runStepsHeap (eng : EngineCfg) (stepTime : Nat → ℚ) (stepStamp : Nat → String)
    (fuel : Nat) : List String → Nat → Nat → Nat → Heap → ℚ →
    (Except PyErr Unit) × Heap × ℚ
  | [], _, _, _, h, total_time => (Except.ok (), h, total_time)
  | step :: rest, i, aRes, aCur, h, total_time =>
    match heapStep eng stepTime stepStamp fuel step i aRes aCur h with
    | (Except.error e, h') => (Except.error e, h', total_time)
    | (Except.ok _, h') =>
      runStepsHeap eng stepTime stepStamp fuel rest (i + 1) aRes aCur h'
        (total_time + stepTime i)

/-- `run_workflow` in the heap embedding: `aInit` is the address of the
caller's initial-data dict.  Returns the result document's address (or the
raised exception) together with the final heap. -/
def run_workflow_heap (eng : EngineCfg) (stepTime : Nat → ℚ) (stepStamp : Nat → String)
    (fuel : Nat) (workflow_type : String) (aInit : Nat) (h : Heap) :
    (Except PyErr Nat) × Heap :=
  match workflow_templates.find? (fun p => p.1 = workflow_type) with
  | none => (Except.error (PyErr.unknownWorkflowType workflow_type workflowNames), h)
  | some entry =>
    let info := entry.2
    let pEs := Heap.alloc h
      [("total_steps_executed", HVal.num info.steps.length),
       ("total_execution_time_seconds", HVal.num 0),
       ("average_step_time_seconds", HVal.num 0),
       ("execution_log", HVal.list [])]
    let h := pEs.1
    let aEs := pEs.2
    let pRes := Heap.alloc h
      [("workflow_type", HVal.str workflow_type),
       ("workflow_description", HVal.str info.description),
       ("api_mode", HVal.str eng.api_mode),
       ("execution_summary", HVal.ref aEs)]
    let h := pRes.1
    let aRes := pRes.2
    let h := Heap.write h aRes (PyDict.updateWith (Heap.read h aRes) (Heap.read h aInit))
    let pCur := Heap.alloc h (Heap.read h aInit)
    let h := pCur.1
    let aCur := pCur.2
    match runStepsHeap eng stepTime stepStamp fuel info.steps 0 aRes aCur h 0 with
    | (Except.error e, h, _) => (Except.error e, h)
    | (Except.ok _, h, total_time) =>
      match PyDict.get? (Heap.read h aRes) "execution_summary" with
      | some (HVal.ref aEs') =>
        let h := Heap.write h aEs'
          (PyDict.set (Heap.read h aEs') "total_execution_time_seconds" (HVal.num total_time))
        if 0 < info.steps.length then
          match PyDict.get? (Heap.read h aRes) "execution_summary" with
          | some (HVal.ref aEs'') =>
            let h := Heap.write h aEs''
              (PyDict.set (Heap.read h aEs'') "average_step_time_seconds"
                (HVal.num (total_time / (info.steps.length : ℚ))))
            (Except.ok aRes, h)
          | _ => (Except.error PyErr.executionSummaryAccessError, h)
        else (Except.ok aRes, h)
      | _ => (Except.error PyErr.executionSummaryAccessError, h)

/-- `run_custom_workflow` in the heap embedding: allocates the custom
`workflow_info` dict, then delegates to `run_workflow("custom", ...)`. -/
def run_custom_workflow_heap (eng : EngineCfg) (stepTime : Nat → ℚ) (stepStamp : Nat → String)
    (fuel : Nat) (steps : List String) (aInit : Nat) (h : Heap) :
    (Except PyErr Nat) × Heap :=
  let pInfo := allocDict h
    [("description", Val.str "Custom workflow with user-selected steps"),
     ("steps", Val.list (steps.map Val.str))]
  let h := pInfo.1
  match run_workflow_heap eng stepTime stepStamp fuel "custom" aInit h with
  | (Except.error e, h) => (Except.error e, h)
  | (Except.ok aRes, h) =>
    let h := Heap.write h aRes
      (PyDict.set (Heap.read h aRes) "workflow_description"
        (HVal.str "Custom workflow with user-selected steps"))
    (Except.ok aRes, h)

/-- `h'` extends `h`: no old cell changed, the heap only grew. -/
def HeapLe (h h' : Heap) : Prop :=
  h.length ≤ h'.length ∧ ∀ a, a < h.length → Heap.read h' a = Heap.read h a

/-- `h'` agrees with `h` on all addresses below `n0` and is at least that
long: the frame the engine must preserve over the caller's cells. -/
def FrameLe (n0 : Nat) (h h' : Heap) : Prop :=
  n0 ≤ h'.length ∧ ∀ a, a < n0 → Heap.read h' a = Heap.read h a

/-- A two-cell caller heap: the initial-data dict at address 0 holds the
key `execution_summary` referencing the caller's own dict at address 1
(the input exhibiting the engine's aliasing through the shallow merge). -/
def aliasedInitHeap : Heap :=
  [[("execution_summary", HVal.ref 1)], [("execution_log", HVal.list [])]]

/-- A one-cell caller heap holding `{"a": 1}`. -/
def plainInitHeap : Heap :=
  [[("a", HVal.num 1)]]


/-! ### Properties of the dict operations -/

namespace PyDict

@[simp] theorem get?_nil (k : String) : get? ([] : List (String × α)) k = none := rfl

@[simp] theorem get?_cons (k' : String) (v : α) (rest : List (String × α)) (k : String) :
    get? ((k', v) :: rest) k = if k' = k then some v else get? rest k := rfl

@[simp] theorem get?_set_self (d : List (String × α)) (k : String) (v : α) :
    get? (set d k v) k = some v := by
  induction d with
  | nil => simp [set, get?]
  | cons p rest ih =>
    obtain ⟨k', v'⟩ := p
    by_cases h : k' = k
    · simp [set, get?, h]
    · simp [set, get?, h, ih]

theorem get?_set_ne (d : List (String × α)) (k k' : String) (v : α) (h : k ≠ k') :
    get? (set d k v) k' = get? d k' := by
  induction d with
  | nil => simp [set, get?, h]
  | cons p rest ih =>
    obtain ⟨k₀, v₀⟩ := p
    by_cases hk : k₀ = k
    · subst hk
      simp [set, get?, h, ih]
    · simp only [set, if_neg hk, get?_cons]
      by_cases hk' : k₀ = k'
      · simp [hk']
      · simp [hk', ih]

theorem get?_updateWith_of_not_has (d other : List (String × α)) (k : String)
    (h : hasKey other k = false) : get? (updateWith d other) k = get? d k := by
  induction other generalizing d with
  | nil => rfl
  | cons p rest ih =>
    obtain ⟨k₀, v₀⟩ := p
    simp only [hasKey, get?_cons] at h
    by_cases hk : k₀ = k
    · simp [hk] at h
    · simp only [updateWith, List.foldl_cons] at *
      rw [ih _ (by simpa [hasKey, hk] using h)]
      exact get?_set_ne d k₀ k v₀ hk

/-- With duplicate-free keys (every real Python dict), merging finds the
merged value. -/
theorem get?_updateWith_of_mem (d other : List (String × α)) (k : String) (v : α)
    (hnd : (keys other).Nodup) (h : get? other k = some v) :
    get? (updateWith d other) k = some v := by
  induction other generalizing d with
  | nil => simp [get?] at h
  | cons p rest ih =>
    obtain ⟨k₀, v₀⟩ := p
    simp only [keys, List.map_cons, List.nodup_cons] at hnd
    simp only [get?_cons] at h
    simp only [updateWith, List.foldl_cons]
    by_cases hk : k₀ = k
    · subst hk
      simp only [if_pos rfl] at h
      cases h
      have hrest : hasKey rest k₀ = false := by
        rcases hfind : get? rest k₀ with _ | w
        · simp [hasKey, hfind]
        · exfalso
          apply hnd.1
          clear ih hnd
          induction rest with
          | nil => simp [get?] at hfind
          | cons q qs ihq =>
            obtain ⟨kq, vq⟩ := q
            simp only [get?_cons] at hfind
            by_cases hq : kq = k₀
            · simp [keys, hq]
            · simp only [if_neg hq] at hfind
              simp [keys] at ihq ⊢
              rcases ihq hfind with hmem
              exact Or.inr hmem
      show get? (updateWith (set d k₀ v) rest) k₀ = some v
      rw [get?_updateWith_of_not_has _ _ _ hrest]
      exact get?_set_self d k₀ v
    · simp only [if_neg hk] at h
      exact ih (set d k₀ v₀) hnd.2 h


@[simp] theorem hasKey_set_self {α : Type*} (d : List (String × α)) (k : String) (v : α) :
    hasKey (set d k v) k = true := by
  simp [hasKey, get?_set_self]

theorem hasKey_set_other {α : Type*} (d : List (String × α)) (k k' : String) (v : α)
    (h : k ≠ k') : hasKey (set d k v) k' = hasKey d k' := by
  simp [hasKey, get?_set_ne _ _ _ _ h]

end PyDict

/-! ### Key-disjointness and inversion helpers -/

theorem str_ext (s t : String) (h : s.data = t.data) : s = t := by
  cases s; cases t; exact congrArg String.mk h

theorem append_head_ne (a b : String) (ca cb : Char) (la lb : List Char)
    (ha : a.data = ca :: la) (hb : b.data = cb :: lb) (hne : ca ≠ cb) (s : String) :
    a ++ s ≠ b := by
  intro h
  have h2 := congrArg String.data h
  rw [String.data_append, ha, hb, List.cons_append] at h2
  exact hne (List.cons.injEq .. ▸ h2).1

theorem append_append_head_ne (a b : String) (ca cb : Char) (la lb : List Char)
    (ha : a.data = ca :: la) (hb : b.data = cb :: lb) (hne : ca ≠ cb) (s t : String) :
    a ++ s ≠ b ++ t := by
  intro h
  have h2 := congrArg String.data h
  rw [String.data_append, String.data_append, ha, hb, List.cons_append,
    List.cons_append] at h2
  exact hne (List.cons.injEq .. ▸ h2).1

theorem append_inj_right (a s t : String) (h : a ++ s = a ++ t) : s = t := by
  have h2 := congrArg String.data h
  rw [String.data_append, String.data_append] at h2
  exact str_ext s t (List.append_cancel_left h2)

theorem input_key_ne_exec (s : String) : ("input_" ++ s) ≠ "execution_summary" :=
  append_head_ne _ _ 'i' 'e' _ _ rfl rfl (by decide) s

theorem output_key_ne_exec (s : String) : ("output_" ++ s) ≠ "execution_summary" :=
  append_head_ne _ _ 'o' 'e' _ _ rfl rfl (by decide) s

theorem input_key_ne_output_key (s t : String) : ("input_" ++ s) ≠ ("output_" ++ t) :=
  append_append_head_ne _ _ 'i' 'o' _ _ rfl rfl (by decide) s t

theorem input_key_inj (s t : String) (h : ("input_" ++ s) = ("input_" ++ t)) : s = t :=
  append_inj_right _ s t h

theorem output_key_inj (s t : String) (h : ("output_" ++ s) = ("output_" ++ t)) : s = t :=
  append_inj_right _ s t h

theorem exceptBind_ok {α β : Type} {x : Except PyErr α} {f : α → Except PyErr β} {b : β}
    (h : Except.bind x f = Except.ok b) : ∃ a, x = Except.ok a ∧ f a = Except.ok b := by
  cases x with
  | error e => simp [Except.bind] at h
  | ok a => exact ⟨a, rfl, by simpa [Except.bind] using h⟩

theorem appendLogEntry_ok_inv {R : Dict} {entry : Val} {R2 : Dict}
    (h : appendLogEntry R entry = Except.ok R2) :
    ∃ es l, PyDict.get? R "execution_summary" = some (Val.dict es) ∧
      PyDict.get? es "execution_log" = some (Val.list l) ∧
      R2 = PyDict.set R "execution_summary"
        (Val.dict (PyDict.set es "execution_log" (Val.list (l ++ [entry])))) := by
  unfold appendLogEntry at h
  split at h
  case _ es heq =>
    split at h
    case _ l heq' =>
      exact ⟨es, l, heq, heq', (Except.ok.injEq .. ▸ h).symm⟩
    case _ => exact absurd h (by simp)
  case _ => exact absurd h (by simp)

theorem setSummaryField_ok_inv {R : Dict} {k : String} {v : Val} {R2 : Dict}
    (h : setSummaryField R k v = Except.ok R2) :
    ∃ es, PyDict.get? R "execution_summary" = some (Val.dict es) ∧
      R2 = PyDict.set R "execution_summary" (Val.dict (PyDict.set es k v)) := by
  unfold setSummaryField at h
  split at h
  case _ es heq => exact ⟨es, heq, (Except.ok.injEq .. ▸ h).symm⟩
  case _ => exact absurd h (by simp)

theorem appendLogEntry_eq {R : Dict} {es : Dict} {l : List Val}
    (h1 : PyDict.get? R "execution_summary" = some (Val.dict es))
    (h2 : PyDict.get? es "execution_log" = some (Val.list l)) (entry : Val) :
    appendLogEntry R entry = Except.ok (PyDict.set R "execution_summary"
      (Val.dict (PyDict.set es "execution_log" (Val.list (l ++ [entry]))))) := by
  unfold appendLogEntry
  simp only [h1, h2]

theorem not_mem_drop_of_nodup {α : Type} (l : List α) (hl : l.Nodup) (n : Nat)
    (hn : n < l.length) : l[n] ∉ l.drop (n + 1) := by
  intro hmem
  have hsplit : l.take (n + 1) ++ l.drop (n + 1) = l := List.take_append_drop _ _
  rw [← hsplit] at hl
  have hdisj := (List.nodup_append.mp hl).2.2
  have htk : l[n] ∈ l.take (n + 1) := by
    have hlen : n < (l.take (n + 1)).length := by
      simp [List.length_take]
      omega
    have : (l.take (n + 1))[n] = l[n] := List.getElem_take ..
    exact this ▸ List.getElem_mem hlen
  exact hdisj htk hmem

/-! ### Characterization of the step loop -/

/-- Keys other than `execution_summary` and the executed steps'
`input_`/`output_` keys pass through the loop unchanged. -/
theorem runSteps_frame (eng : EngineCfg) (st : Nat → ℚ) (ss : Nat → String) :
    ∀ (steps : List String) (i : Nat) (R C : Dict) (t : ℚ) (R' : Dict) (t' : ℚ),
    runSteps eng st ss steps i R C t = Except.ok (R', t') →
    ∀ k, k ≠ "execution_summary" →
      (∀ s ∈ steps, k ≠ "input_" ++ s ∧ k ≠ "output_" ++ s) →
      PyDict.get? R' k = PyDict.get? R k := by
  intro steps
  induction steps with
  | nil =>
    intro i R C t R' t' hrun k _ _
    simp only [runSteps, Except.ok.injEq, Prod.mk.injEq] at hrun
    rw [← hrun.1]
  | cons s rest ih =>
    intro i R C t R' t' hrun k hkexec hkio
    simp only [runSteps] at hrun
    obtain ⟨R2, happ, hrun2⟩ := exceptBind_ok hrun
    obtain ⟨es, l, hes, hlog, hR2⟩ := appendLogEntry_ok_inv happ
    have hfr := ih (i + 1) R2 _ _ R' t' hrun2 k hkexec
      (fun s' hs' => hkio s' (List.mem_cons_of_mem _ hs'))
    rw [hfr, hR2, PyDict.get?_set_ne _ _ _ _ (Ne.symm hkexec),
      PyDict.get?_set_ne _ _ _ _ (Ne.symm (hkio s (List.mem_cons_self ..)).2),
      PyDict.get?_set_ne _ _ _ _ (Ne.symm (hkio s (List.mem_cons_self ..)).1)]

/-- The loop records, for the `n`-th executed step, the pre-step context
under `input_<step>` and that context's step output under `output_<step>`
(provided the step is not executed again later, which would overwrite
them). -/
theorem runSteps_recorded (eng : EngineCfg) (st : Nat → ℚ) (ss : Nat → String) :
    ∀ (steps : List String) (i : Nat) (R C : Dict) (t : ℚ) (R' : Dict) (t' : ℚ),
    runSteps eng st ss steps i R C t = Except.ok (R', t') →
    ∀ n (hn : n < steps.length), steps[n] ∉ steps.drop (n + 1) →
      PyDict.get? R' ("input_" ++ steps[n]) =
        some (Val.dict (runCtx eng C (steps.take n))) ∧
      PyDict.get? R' ("output_" ++ steps[n]) =
        some (Val.dict (stepOut eng steps[n] (runCtx eng C (steps.take n)))) := by
  intro steps
  induction steps with
  | nil =>
    intro i R C t R' t' _ n hn
    exact absurd hn (by simp)
  | cons s rest ih =>
    intro i R C t R' t' hrun n hn hnd
    simp only [runSteps] at hrun
    obtain ⟨R2, happ, hrun2⟩ := exceptBind_ok hrun
    obtain ⟨es, l, hes, hlog, hR2⟩ := appendLogEntry_ok_inv happ
    cases n with
    | zero =>
      simp only [List.getElem_cons_zero, List.drop_succ_cons, List.drop_zero] at hnd ⊢
      have hsafe : ∀ s' ∈ rest,
          ("input_" ++ s) ≠ "input_" ++ s' ∧ ("input_" ++ s) ≠ "output_" ++ s' := by
        intro s' hs'
        refine ⟨fun hcontra => ?_, input_key_ne_output_key s s'⟩
        exact hnd (input_key_inj s s' hcontra ▸ hs')
      have hsafeO : ∀ s' ∈ rest,
          ("output_" ++ s) ≠ "input_" ++ s' ∧ ("output_" ++ s) ≠ "output_" ++ s' := by
        intro s' hs'
        refine ⟨Ne.symm (input_key_ne_output_key s' s), fun hcontra => ?_⟩
        exact hnd (output_key_inj s s' hcontra ▸ hs')
      have hfrI := runSteps_frame eng st ss rest (i + 1) R2 _ _ R' t' hrun2
        ("input_" ++ s) (input_key_ne_exec s) hsafe
      have hfrO := runSteps_frame eng st ss rest (i + 1) R2 _ _ R' t' hrun2
        ("output_" ++ s) (output_key_ne_exec s) hsafeO
      constructor
      · rw [hfrI, hR2, PyDict.get?_set_ne _ _ _ _ (Ne.symm (input_key_ne_exec s)),
          PyDict.get?_set_ne _ _ _ _ (Ne.symm (input_key_ne_output_key s s)),
          PyDict.get?_set_self]
        simp [runCtx]
      · rw [hfrO, hR2, PyDict.get?_set_ne _ _ _ _ (Ne.symm (output_key_ne_exec s)),
          PyDict.get?_set_self]
        simp [runCtx]
    | succ n =>
      have hrec := ih (i + 1) R2 (PyDict.updateWith C (stepOut eng s C)) (t + st i) R' t'
        hrun2 n (by simpa using hn) (by simpa using hnd)
      simpa [runCtx] using hrec

/-- When the result's execution summary is well-shaped, the loop always
completes: the total is the sum of the step durations, the final log is
the starting log extended by one entry per step in order, and the other
summary fields are untouched. -/
theorem runSteps_ok (eng : EngineCfg) (st : Nat → ℚ) (ss : Nat → String) :
    ∀ (steps : List String) (i : Nat) (R C : Dict) (t : ℚ) (es : Dict) (l : List Val),
    PyDict.get? R "execution_summary" = some (Val.dict es) →
    PyDict.get? es "execution_log" = some (Val.list l) →
    ∃ R' es',
      runSteps eng st ss steps i R C t =
        Except.ok (R', t + sumTimes st i steps.length) ∧
      PyDict.get? R' "execution_summary" = some (Val.dict es') ∧
      PyDict.get? es' "execution_log" =
        some (Val.list (l ++ logEntries eng st ss steps i C)) ∧
      (∀ k, k ≠ "execution_log" → PyDict.get? es' k = PyDict.get? es k) := by
  intro steps
  induction steps with
  | nil =>
    intro i R C t es l hes hlog
    exact ⟨R, es, by simp [runSteps, sumTimes], hes, by simpa [logEntries] using hlog,
      fun k _ => rfl⟩
  | cons s rest ih =>
    intro i R C t es l hes hlog
    have hes1 : PyDict.get? (PyDict.set (PyDict.set R ("input_" ++ s)
        (Val.dict C)) ("output_" ++ s) (Val.dict (stepOut eng s C)))
        "execution_summary" = some (Val.dict es) := by
      rw [PyDict.get?_set_ne _ _ _ _ (output_key_ne_exec s),
        PyDict.get?_set_ne _ _ _ _ (input_key_ne_exec s), hes]
    have happ := appendLogEntry_eq hes1 hlog
      (mkLogEntry ss st i s (PyDict.updateWith C (stepOut eng s C)) (stepOut eng s C))
    obtain ⟨R', es', hrun', hes', hlog', hother'⟩ := ih (i + 1) _
      (PyDict.updateWith C (stepOut eng s C)) (t + st i)
      (PyDict.set es "execution_log" (Val.list (l ++
        [mkLogEntry ss st i s (PyDict.updateWith C (stepOut eng s C)) (stepOut eng s C)])))
      (l ++ [mkLogEntry ss st i s (PyDict.updateWith C (stepOut eng s C)) (stepOut eng s C)])
      (PyDict.get?_set_self _ _ _) (PyDict.get?_set_self _ _ _)
    refine ⟨R', es', ?_, hes', ?_, ?_⟩
    · simp only [runSteps, happ, Except.bind]
      rw [hrun']
      have harith : t + sumTimes st i (s :: rest).length =
          t + st i + sumTimes st (i + 1) rest.length := by
        simp [sumTimes, add_assoc]
      rw [harith]
    · rw [hlog']
      simp [logEntries]
    · intro k hk
      rw [hother' k hk, PyDict.get?_set_ne _ _ _ _ (Ne.symm hk)]

/-- Membership in the (duplicate-free) catalog determines the `find?`
resolution `run_workflow` performs. -/
theorem find?_workflow (wt : String) (info : WorkflowInfo)
    (h : (wt, info) ∈ workflow_templates) :
    workflow_templates.find? (fun p => p.1 = wt) = some (wt, info) := by
  simp only [workflow_templates, List.mem_cons, List.not_mem_nil, or_false] at h
  rcases h with h | h | h | h <;> (injection h with h1 h2; subst h1; subst h2; rfl)

/-- Full characterization of a completed `run_workflow` whose post-merge
execution summary is well-shaped (`es1` with log `l0`): the run completes,
the summary holds the total and average times and the extended log, other
summary fields and unrelated top-level keys pass through, and each step's
`input_`/`output_` records hold the threaded contexts. -/
theorem run_workflow_char (eng : EngineCfg) (st : Nat → ℚ) (ss : Nat → String)
    (wt : String) (info : WorkflowInfo) (initial : Dict)
    (hfind : workflow_templates.find? (fun p => p.1 = wt) = some (wt, info))
    (es1 : Dict) (l0 : List Val)
    (hes1 : PyDict.get? (PyDict.updateWith (initResult eng wt info) initial)
      "execution_summary" = some (Val.dict es1))
    (hlog0 : PyDict.get? es1 "execution_log" = some (Val.list l0))
    (hpos : 0 < info.steps.length) :
    ∃ doc esF,
      run_workflow eng st ss wt initial = Except.ok doc ∧
      PyDict.get? doc "execution_summary" = some (Val.dict esF) ∧
      PyDict.get? esF "execution_log" =
        some (Val.list (l0 ++ logEntries eng st ss info.steps 0 initial)) ∧
      PyDict.get? esF "total_execution_time_seconds" =
        some (Val.num (sumTimes st 0 info.steps.length)) ∧
      PyDict.get? esF "average_step_time_seconds" =
        some (Val.num (sumTimes st 0 info.steps.length / (info.steps.length : ℚ))) ∧
      (∀ k, k ≠ "execution_log" → k ≠ "total_execution_time_seconds" →
        k ≠ "average_step_time_seconds" → PyDict.get? esF k = PyDict.get? es1 k) ∧
      (∀ k, k ≠ "execution_summary" →
        (∀ s ∈ info.steps, k ≠ "input_" ++ s ∧ k ≠ "output_" ++ s) →
        PyDict.get? doc k =
          PyDict.get? (PyDict.updateWith (initResult eng wt info) initial) k) ∧
      (∀ n (hn : n < info.steps.length), info.steps[n] ∉ info.steps.drop (n + 1) →
        PyDict.get? doc ("input_" ++ info.steps[n]) =
          some (Val.dict (runCtx eng initial (info.steps.take n))) ∧
        PyDict.get? doc ("output_" ++ info.steps[n]) =
          some (Val.dict (stepOut eng info.steps[n]
            (runCtx eng initial (info.steps.take n))))) := by
  obtain ⟨R2, es2, hrun, hes2, hlog2, hoth2⟩ := runSteps_ok eng st ss info.steps 0
    (PyDict.updateWith (initResult eng wt info) initial) initial 0 es1 l0 hes1 hlog0
  rw [zero_add] at hrun
  refine ⟨PyDict.set (PyDict.set R2 "execution_summary"
      (Val.dict (PyDict.set es2 "total_execution_time_seconds"
        (Val.num (sumTimes st 0 info.steps.length))))) "execution_summary"
      (Val.dict (PyDict.set (PyDict.set es2 "total_execution_time_seconds"
        (Val.num (sumTimes st 0 info.steps.length))) "average_step_time_seconds"
        (Val.num (sumTimes st 0 info.steps.length / (info.steps.length : ℚ))))),
    PyDict.set (PyDict.set es2 "total_execution_time_seconds"
      (Val.num (sumTimes st 0 info.steps.length))) "average_step_time_seconds"
      (Val.num (sumTimes st 0 info.steps.length / (info.steps.length : ℚ))),
    ?_, ?_, ?_, ?_, ?_, ?_, ?_, ?_⟩
  · simp only [run_workflow, hfind]
    rw [hrun]
    simp only [Except.bind]
    have hset1 : setSummaryField R2 "total_execution_time_seconds"
        (Val.num (sumTimes st 0 info.steps.length)) =
        Except.ok (PyDict.set R2 "execution_summary"
          (Val.dict (PyDict.set es2 "total_execution_time_seconds"
            (Val.num (sumTimes st 0 info.steps.length))))) := by
      unfold setSummaryField
      rw [hes2]
    rw [hset1]
    simp only [Except.bind, if_pos hpos]
    unfold setSummaryField
    rw [PyDict.get?_set_self]
  · rw [PyDict.get?_set_self]
  · rw [PyDict.get?_set_ne _ _ _ _ (by decide), PyDict.get?_set_ne _ _ _ _ (by decide),
      hlog2]
  · rw [PyDict.get?_set_ne _ _ _ _ (by decide), PyDict.get?_set_self]
  · rw [PyDict.get?_set_self]
  · intro k hk1 hk2 hk3
    rw [PyDict.get?_set_ne _ _ _ _ (Ne.symm hk3), PyDict.get?_set_ne _ _ _ _ (Ne.symm hk2),
      hoth2 k hk1]
  · intro k hkexec hkio
    rw [PyDict.get?_set_ne _ _ _ _ (Ne.symm hkexec), PyDict.get?_set_ne _ _ _ _
      (Ne.symm hkexec)]
    exact runSteps_frame eng st ss info.steps 0 _ initial 0 R2 _ hrun k hkexec hkio
  · intro n hn hnd
    have hrec := runSteps_recorded eng st ss info.steps 0 _ initial 0 R2 _ hrun n hn hnd
    constructor
    · rw [PyDict.get?_set_ne _ _ _ _ (Ne.symm (input_key_ne_exec _)),
        PyDict.get?_set_ne _ _ _ _ (Ne.symm (input_key_ne_exec _)), hrec.1]
    · rw [PyDict.get?_set_ne _ _ _ _ (Ne.symm (output_key_ne_exec _)),
        PyDict.get?_set_ne _ _ _ _ (Ne.symm (output_key_ne_exec _)), hrec.2]

/-- Inversion of a successful `run_workflow`: the loop succeeded, and the
returned document differs from the loop's result only at
`execution_summary`. -/
theorem run_workflow_ok_inv (eng : EngineCfg) (st : Nat → ℚ) (ss : Nat → String)
    (wt : String) (info : WorkflowInfo) (initial : Dict) (doc : Dict)
    (hfind : workflow_templates.find? (fun p => p.1 = wt) = some (wt, info))
    (hrun : run_workflow eng st ss wt initial = Except.ok doc) :
    ∃ R2 T, runSteps eng st ss info.steps 0
      (PyDict.updateWith (initResult eng wt info) initial) initial 0 =
        Except.ok (R2, T) ∧
      ∀ k, k ≠ "execution_summary" → PyDict.get? doc k = PyDict.get? R2 k := by
  simp only [run_workflow, hfind] at hrun
  obtain ⟨⟨R2, T⟩, hsteps, hrest⟩ := exceptBind_ok hrun
  obtain ⟨R3, hset1, hrest2⟩ := exceptBind_ok hrest
  obtain ⟨es3, _, hR3⟩ := setSummaryField_ok_inv hset1
  refine ⟨R2, T, hsteps, ?_⟩
  intro k hk
  by_cases hpos : 0 < info.steps.length
  · rw [if_pos hpos] at hrest2
    obtain ⟨es4, _, hdoc⟩ := setSummaryField_ok_inv hrest2
    rw [hdoc, PyDict.get?_set_ne _ _ _ _ (Ne.symm hk), hR3,
      PyDict.get?_set_ne _ _ _ _ (Ne.symm hk)]
  · rw [if_neg hpos, Except.ok.injEq] at hrest2
    rw [← hrest2, hR3, PyDict.get?_set_ne _ _ _ _ (Ne.symm hk)]

/-- The post-merge execution summary when the initial data does not contain
the key `execution_summary`: the engine's own freshly initialized record. -/
theorem merged_summary_of_no_key (eng : EngineCfg) (wt : String) (info : WorkflowInfo)
    (initial : Dict) (hnokey : PyDict.hasKey initial "execution_summary" = false) :
    PyDict.get? (PyDict.updateWith (initResult eng wt info) initial) "execution_summary" =
      some (Val.dict
        [("total_steps_executed", Val.num info.steps.length),
         ("total_execution_time_seconds", Val.num 0),
         ("average_step_time_seconds", Val.num 0),
         ("execution_log", Val.list [])]) := by
  rw [PyDict.get?_updateWith_of_not_has _ _ _ hnokey]
  rfl

/-- Every catalog workflow has at least one step. -/
theorem workflow_steps_pos (wt : String) (info : WorkflowInfo)
    (h : (wt, info) ∈ workflow_templates) : 0 < info.steps.length := by
  simp only [workflow_templates, List.mem_cons, List.not_mem_nil, or_false] at h
  rcases h with h | h | h | h <;> (injection h with h1 h2; subst h2; decide)

/-- Every catalog workflow's step list is duplicate-free. -/
theorem workflow_steps_nodup (wt : String) (info : WorkflowInfo)
    (h : (wt, info) ∈ workflow_templates) : info.steps.Nodup := by
  simp only [workflow_templates, List.mem_cons, List.not_mem_nil, or_false] at h
  rcases h with h | h | h | h <;> (injection h with h1 h2; subst h2; decide)

/-- One log entry per executed step. -/
theorem logEntries_length (eng : EngineCfg) (st : Nat → ℚ) (ss : Nat → String) :
    ∀ (steps : List String) (i : Nat) (C : Dict),
    (logEntries eng st ss steps i C).length = steps.length := by
  intro steps
  induction steps with
  | nil => intro i C; rfl
  | cons s rest ih => intro i C; simp [logEntries, ih]

/-- The mock responder always attaches the mock `_api_info` metadata. -/
theorem generateMockResponse_api_info (p s : String) :
    PyDict.get? (generateMockResponse p s) "_api_info" = some mockApiInfo := by
  unfold generateMockResponse
  exact PyDict.get?_set_self _ _ _

/-- In live mode with a client whose every call raises, `call_claude_api`
falls back to the mock responder. -/
theorem callClaudeApi_of_failing (eng : EngineCfg) (c : ApiClient)
    (hmode : eng.api_mode = "live") (hcli : eng.api_client = some c)
    (hfail : ∀ p s, ∃ m, c.callApi p s = Except.error m) (p s : String) :
    callClaudeApi eng p s = generateMockResponse p s := by
  obtain ⟨m, hm⟩ := hfail p s
  simp [callClaudeApi, hmode, hcli, hm]

/-! ### Frame reasoning over the heap -/

theorem Heap.length_write (h : Heap) (a : Nat) (d : HDict) :
    (Heap.write h a d).length = h.length :=
  List.length_set ..

theorem Heap.read_write_self (h : Heap) (a : Nat) (d : HDict) (ha : a < h.length) :
    Heap.read (Heap.write h a d) a = d := by
  simp [Heap.read, Heap.write, List.getD, List.getElem?_set_eq_of_lt _ ha]

theorem Heap.read_write_ne (h : Heap) (a b : Nat) (d : HDict) (hne : a ≠ b) :
    Heap.read (Heap.write h a d) b = Heap.read h b := by
  simp [Heap.read, Heap.write, List.getD, List.getElem?_set_ne hne]

theorem Heap.read_append_lt (h ext : Heap) (a : Nat) (ha : a < h.length) :
    Heap.read (h ++ ext) a = Heap.read h a := by
  simp [Heap.read, List.getD, List.getElem?_append, ha]

theorem Heap.read_alloc_self (h : Heap) (d : HDict) :
    Heap.read (Heap.alloc h d).1 (Heap.alloc h d).2 = d := by
  simp [Heap.read, Heap.alloc, List.getD]

theorem HeapLe.refl (h : Heap) : HeapLe h h :=
  ⟨Nat.le_refl _, fun _ _ => rfl⟩

theorem HeapLe.trans {h h' h'' : Heap} (h1 : HeapLe h h') (h2 : HeapLe h' h'') :
    HeapLe h h'' :=
  ⟨Nat.le_trans h1.1 h2.1, fun a ha => (h2.2 a (Nat.lt_of_lt_of_le ha h1.1)).trans (h1.2 a ha)⟩

theorem HeapLe.alloc (h : Heap) (d : HDict) : HeapLe h (Heap.alloc h d).1 :=
  ⟨by simp [Heap.alloc], fun a ha => Heap.read_append_lt h [d] a ha⟩

mutual

/-- Materializing a value only appends fresh cells. -/
theorem allocVal_extends : ∀ (h : Heap) (v : Val), HeapLe h (allocVal h v).1
  | _, Val.str _ => HeapLe.refl _
  | _, Val.num _ => HeapLe.refl _
  | _, Val.bool _ => HeapLe.refl _
  | h, Val.list l => allocValList_extends h l
  | h, Val.dict d => (allocValEntries_extends h d).trans (HeapLe.alloc _ _)
termination_by structural _h v => v

/-- Materializing a list of values only appends fresh cells. -/
theorem allocValList_extends : ∀ (h : Heap) (l : List Val), HeapLe h (allocValList h l).1
  | _, [] => HeapLe.refl _
  | h, v :: vs => (allocVal_extends h v).trans (allocValList_extends _ vs)
termination_by structural _h l => l

/-- Materializing dict entries only appends fresh cells. -/
theorem allocValEntries_extends : ∀ (h : Heap) (d : List (String × Val)),
    HeapLe h (allocValEntries h d).1
  | _, [] => HeapLe.refl _
  | h, (_, v) :: ps => (allocVal_extends h v).trans (allocValEntries_extends _ ps)
termination_by structural _h d => d

end

theorem allocDict_extends (h : Heap) (d : Dict) : HeapLe h (allocDict h d).1 :=
  (allocValEntries_extends h d).trans (HeapLe.alloc _ _)

theorem FrameLe.of_le (n0 : Nat) (h : Heap) (hn : n0 ≤ h.length) : FrameLe n0 h h :=
  ⟨hn, fun _ _ => rfl⟩

theorem FrameLe.comp {n0 : Nat} {h h' h'' : Heap} (h1 : FrameLe n0 h h')
    (h2 : FrameLe n0 h' h'') : FrameLe n0 h h'' :=
  ⟨h2.1, fun a ha => (h2.2 a ha).trans (h1.2 a ha)⟩

theorem FrameLe.of_heapLe {h h' : Heap} (hle : HeapLe h h') {n0 : Nat}
    (hn : n0 ≤ h.length) : FrameLe n0 h h' :=
  ⟨Nat.le_trans hn hle.1, fun a ha => hle.2 a (Nat.lt_of_lt_of_le ha hn)⟩

theorem FrameLe.write {n0 : Nat} {h : Heap} (a : Nat) (d : HDict)
    (hn : n0 ≤ h.length) (ha : n0 ≤ a) : FrameLe n0 h (Heap.write h a d) :=
  ⟨by rw [Heap.length_write]; exact hn,
   fun b hb => Heap.read_write_ne h a b d (Nat.ne_of_gt (Nat.lt_of_lt_of_le hb ha))⟩

/-- One heap-level step touches only fresh cells when the result cell's
`execution_summary` reference is itself fresh (`≥ n0`): the caller's cells
below `n0` are untouched, the heap only grows, and the summary reference
survives in place. -/
theorem heapStep_frame (eng : EngineCfg) (st : Nat → ℚ) (ss : Nat → String) (fuel : Nat)
    (s : String) (i aRes aCur n0 aEsF : Nat) (h : Heap)
    (hn : n0 ≤ h.length) (hRlt : aRes < h.length) (_hClt : aCur < h.length)
    (hRge : n0 ≤ aRes) (hCge : n0 ≤ aCur) (hEge : n0 ≤ aEsF) (hRC : aRes ≠ aCur)
    (hsum : PyDict.get? (Heap.read h aRes) "execution_summary" = some (HVal.ref aEsF)) :
    FrameLe n0 h (heapStep eng st ss fuel s i aRes aCur h).2 ∧
    h.length ≤ (heapStep eng st ss fuel s i aRes aCur h).2.length ∧
    PyDict.get? (Heap.read (heapStep eng st ss fuel s i aRes aCur h).2 aRes)
      "execution_summary" = some (HVal.ref aEsF) := by
  unfold heapStep
  split
  case _ => exact ⟨FrameLe.of_le n0 h hn, Nat.le_refl _, hsum⟩
  case _ current_val hcv =>
    lift_lets
    extract_lets step_output p h1 aOut q h2 aIn h3 h4 h5 entry r h6 aEntry
    have hle2 : HeapLe h h2 := (allocDict_extends h step_output).trans (HeapLe.alloc h1 _)
    have hlen2 : h.length ≤ h2.length := hle2.1
    have hRlt2 : aRes < h2.length := Nat.lt_of_lt_of_le hRlt hlen2
    have hlen3 : h3.length = h2.length := Heap.length_write ..
    have hlen4 : h4.length = h3.length := Heap.length_write ..
    have hlen5 : h5.length = h4.length := Heap.length_write ..
    have hle6' : HeapLe h5 h6 := HeapLe.alloc h5 entry
    have hlen6 : h.length ≤ h6.length := by
      have := hle6'.1
      omega
    have hfr3 : FrameLe n0 h h3 :=
      (FrameLe.of_heapLe hle2 hn).comp
        (FrameLe.write aRes _ (Nat.le_trans hn hlen2) hRge)
    have hfr4 : FrameLe n0 h h4 := hfr3.comp (FrameLe.write aRes _ (by omega) hRge)
    have hfr5 : FrameLe n0 h h5 := hfr4.comp (FrameLe.write aCur _ (by omega) hCge)
    have hfr6 : FrameLe n0 h h6 := hfr5.comp (FrameLe.of_heapLe hle6' (by omega))
    have hr2 : Heap.read h2 aRes = Heap.read h aRes := hle2.2 aRes hRlt
    have hr3 : Heap.read h3 aRes =
        PyDict.set (Heap.read h2 aRes) ("input_" ++ s) (HVal.ref aIn) :=
      Heap.read_write_self _ _ _ hRlt2
    have hr4 : Heap.read h4 aRes =
        PyDict.set (Heap.read h3 aRes) ("output_" ++ s) (HVal.ref aOut) :=
      Heap.read_write_self _ _ _ (by omega)
    have hr5 : Heap.read h5 aRes = Heap.read h4 aRes :=
      Heap.read_write_ne _ _ _ _ (Ne.symm hRC)
    have hr6 : Heap.read h6 aRes = Heap.read h5 aRes := hle6'.2 aRes (by omega)
    have hexec6 : PyDict.get? (Heap.read h6 aRes) "execution_summary" =
        some (HVal.ref aEsF) := by
      rw [hr6, hr5, hr4, PyDict.get?_set_ne _ _ _ _ (output_key_ne_exec s), hr3,
        PyDict.get?_set_ne _ _ _ _ (input_key_ne_exec s), hr2, hsum]
    split
    case _ aEs heq =>
      have haes : aEs = aEsF := by
        have h2eq := heq.symm.trans hexec6
        injection h2eq with h3eq
        injection h3eq
      rw [haes]
      split
      case _ l hlq =>
        refine ⟨hfr6.comp (FrameLe.write aEsF _ hfr6.1 hEge), ?_, ?_⟩
        · exact le_of_le_of_eq hlen6 (Heap.length_write h6 aEsF _).symm
        · by_cases hcase : aEsF = aRes
          · subst hcase
            rw [Heap.read_write_self _ _ _ (by omega),
              PyDict.get?_set_ne _ _ _ _ (by decide)]
            exact hexec6
          · rw [Heap.read_write_ne _ _ _ _ hcase]
            exact hexec6
      case _ => exact ⟨hfr6, hlen6, hexec6⟩
    case _ => exact ⟨hfr6, hlen6, hexec6⟩

/-- The heap-level step loop preserves the frame below `n0` whenever the
result and current-context cells and the summary reference are fresh. -/
theorem runStepsHeap_frame (eng : EngineCfg) (st : Nat → ℚ) (ss : Nat → String)
    (fuel n0 aEsF : Nat) (hEge : n0 ≤ aEsF) :
    ∀ (steps : List String) (i aRes aCur : Nat) (h : Heap) (t : ℚ),
    n0 ≤ h.length → aRes < h.length → aCur < h.length →
    n0 ≤ aRes → n0 ≤ aCur → aRes ≠ aCur →
    PyDict.get? (Heap.read h aRes) "execution_summary" = some (HVal.ref aEsF) →
    FrameLe n0 h (runStepsHeap eng st ss fuel steps i aRes aCur h t).2.1 ∧
    h.length ≤ (runStepsHeap eng st ss fuel steps i aRes aCur h t).2.1.length ∧
    PyDict.get? (Heap.read (runStepsHeap eng st ss fuel steps i aRes aCur h t).2.1 aRes)
      "execution_summary" = some (HVal.ref aEsF) := by
  intro steps
  induction steps with
  | nil =>
    intro i aRes aCur h t hn _ _ _ _ _ hsum
    exact ⟨FrameLe.of_le n0 h hn, Nat.le_refl _, hsum⟩
  | cons s rest ih =>
    intro i aRes aCur h t hn hRlt hClt hRge hCge hRC hsum
    obtain ⟨hfr, hlen, hsum'⟩ := heapStep_frame eng st ss fuel s i aRes aCur n0 aEsF h
      hn hRlt hClt hRge hCge hEge hRC hsum
    simp only [runStepsHeap]
    rcases hstep : heapStep eng st ss fuel s i aRes aCur h with ⟨exc, h'⟩
    rw [hstep] at hfr hlen hsum'
    cases exc with
    | error e => exact ⟨hfr, hlen, hsum'⟩
    | ok u =>
      obtain ⟨hfr2, hlen2, hsum2⟩ := ih (i + 1) aRes aCur h' (t + st i)
        hfr.1 (Nat.lt_of_lt_of_le hRlt hlen) (Nat.lt_of_lt_of_le hClt hlen)
        hRge hCge hRC hsum'
      exact ⟨hfr.comp hfr2, Nat.le_trans hlen hlen2, hsum2⟩

/-- `run_workflow` (heap embedding) never writes to any pre-existing cell
when the caller's initial-data dict has no `execution_summary` key: in
that case the result cell's summary reference is fresh, and every write of
the run lands in a fresh cell. -/
theorem run_workflow_heap_frame (eng : EngineCfg) (st : Nat → ℚ) (ss : Nat → String)
    (fuel : Nat) (wt : String) (aInit : Nat) (h0 : Heap)
    (hInit : aInit < h0.length)
    (hnokey : PyDict.hasKey (Heap.read h0 aInit) "execution_summary" = false) :
    ∀ a, a < h0.length →
      Heap.read (run_workflow_heap eng st ss fuel wt aInit h0).2 a = Heap.read h0 a := by
  unfold run_workflow_heap
  split
  case _ => exact fun a _ => rfl
  case _ entry heq =>
    lift_lets
    extract_lets info pEs h1 aEs pRes h2 aRes h3 pCur h4 aCur
    have haEs : aEs = h0.length := rfl
    have hlen1 : h1.length = h0.length + 1 := by
      unfold h1 pEs
      simp [Heap.alloc]
    have haRes : aRes = h0.length + 1 := by
      unfold aRes pRes
      simp [Heap.alloc, hlen1]
    have hlen2 : h2.length = h0.length + 2 := by
      unfold h2 pRes
      simp [Heap.alloc, hlen1]
    have hlen3 : h3.length = h0.length + 2 := by
      unfold h3
      rw [Heap.length_write, hlen2]
    have haCur : aCur = h0.length + 2 := by
      unfold aCur pCur
      simp [Heap.alloc, hlen3]
    have hlen4 : h4.length = h0.length + 3 := by
      unfold h4 pCur
      simp [Heap.alloc, hlen3]
    have hr2Init : Heap.read h2 aInit = Heap.read h0 aInit :=
      ((HeapLe.alloc h0 _).trans (HeapLe.alloc h1 _)).2 aInit hInit
    have hr2Res : Heap.read h2 aRes =
        [("workflow_type", HVal.str wt),
         ("workflow_description", HVal.str info.description),
         ("api_mode", HVal.str eng.api_mode),
         ("execution_summary", HVal.ref aEs)] :=
      Heap.read_alloc_self h1 _
    have hr3Res : Heap.read h3 aRes =
        PyDict.updateWith (Heap.read h2 aRes) (Heap.read h2 aInit) :=
      Heap.read_write_self _ _ _ (by omega)
    have hr4Res : Heap.read h4 aRes = Heap.read h3 aRes :=
      (HeapLe.alloc h3 _).2 aRes (by omega)
    have hsum4 : PyDict.get? (Heap.read h4 aRes) "execution_summary" =
        some (HVal.ref aEs) := by
      rw [hr4Res, hr3Res, hr2Init,
        PyDict.get?_updateWith_of_not_has _ _ _ hnokey, hr2Res]
      rfl
    have hfr4 : FrameLe h0.length h0 h4 := by
      refine @FrameLe.comp h0.length h0 h3 _ ?_ ?_
      · refine @FrameLe.comp h0.length h0 h2 _ ?_ ?_
        · exact FrameLe.of_heapLe ((HeapLe.alloc h0 _).trans (HeapLe.alloc h1 _))
            (Nat.le_refl _)
        · exact FrameLe.write aRes _ (by omega) (by omega)
      · exact FrameLe.of_heapLe (HeapLe.alloc h3 _) (by omega)
    obtain ⟨hfrL, hlenL, hsumL⟩ := runStepsHeap_frame eng st ss fuel h0.length aEs
      (by omega) info.steps 0 aRes aCur h4 0 (by omega) (by omega) (by omega)
      (by omega) (by omega) (by omega) hsum4
    rcases hloop : runStepsHeap eng st ss fuel info.steps 0 aRes aCur h4 0 with
      ⟨exc, hL, total⟩
    rw [hloop] at hfrL hlenL hsumL
    dsimp only at hfrL hlenL hsumL
    simp only [hloop]
    cases exc with
    | error e =>
      intro a ha
      exact ((hfr4.comp hfrL).2 a ha)
    | ok u =>
      dsimp only
      rw [hsumL]
      dsimp only
      have hwrite1 : FrameLe h0.length hL
          (Heap.write hL aEs (PyDict.set (Heap.read hL aEs)
            "total_execution_time_seconds" (HVal.num total))) :=
        FrameLe.write aEs _ hfrL.1 (by omega)
      have hsumW : PyDict.get? (Heap.read (Heap.write hL aEs
          (PyDict.set (Heap.read hL aEs) "total_execution_time_seconds" (HVal.num total)))
          aRes) "execution_summary" = some (HVal.ref aEs) := by
        by_cases hcase : aEs = aRes
        · rw [← hcase] at hsumL ⊢
          rw [Heap.read_write_self _ _ _ (by omega),
            PyDict.get?_set_ne _ _ _ _ (by decide), hsumL]
        · rw [Heap.read_write_ne _ _ _ _ hcase, hsumL]
      split
      · rw [hsumW]
        intro a ha
        have hfrW2 : FrameLe h0.length _ _ :=
          @FrameLe.write h0.length (Heap.write hL aEs (PyDict.set (Heap.read hL aEs)
            "total_execution_time_seconds" (HVal.num total))) aEs
            (PyDict.set (Heap.read (Heap.write hL aEs (PyDict.set (Heap.read hL aEs)
              "total_execution_time_seconds" (HVal.num total))) aEs)
              "average_step_time_seconds"
              (HVal.num (total / (info.steps.length : ℚ))))
            hwrite1.1 (by omega)
        exact ((((hfr4.comp hfrL).comp hwrite1).comp hfrW2).2 a ha)
      · intro a ha
        exact (((hfr4.comp hfrL).comp hwrite1).2 a ha)

/-! ### Characterization of the UI normalization loop -/

/-- The promotion loop equals: find the first present alternate field and
promote it, else leave the record alone. -/
theorem promoteTextField_char (d : Dict) : ∀ (fields : List String),
    WO.promoteTextField d fields =
      match fields.find? (fun f => PyDict.hasKey d f) with
      | some f => PyDict.set d "analysis" (PyDict.getD d f (Val.str ""))
      | none => d := by
  intro fields
  induction fields with
  | nil => rfl
  | cons f rest ih =>
    cases hf : PyDict.hasKey d f with
    | true => simp [WO.promoteTextField, List.find?_cons, hf]
    | false => simp [WO.promoteTextField, List.find?_cons, hf, ih]

/-- What `ensureStepFields` guarantees on a dict-shaped record:
`recommendations` is always present afterwards, and when the record lacked
both `analysis` and `response_text`, `analysis` holds the promoted value
(or the placeholder). -/
theorem ensureStepFields_dict (d : Dict) :
    ∃ d', WO.ensureStepFields (Val.dict d) = Val.dict d' ∧
      PyDict.hasKey d' "recommendations" = true ∧
      (PyDict.hasKey d "analysis" = false → PyDict.hasKey d "response_text" = false →
        PyDict.get? d' "analysis" = some (WO.promotedAnalysis d)) := by
  by_cases hA : PyDict.hasKey d "analysis" = true
  · have hskip : WO.ensureStepFields (Val.dict d) =
        if ¬ PyDict.hasKey d "recommendations" then
          Val.dict (PyDict.set d "recommendations" (Val.list []))
        else Val.dict d := by
      unfold WO.ensureStepFields
      simp [hA]
    by_cases hR : PyDict.hasKey d "recommendations" = true
    · refine ⟨d, ?_, hR, fun hc _ => absurd hA (by simp [hc])⟩
      rw [hskip]
      simp [hR]
    · simp only [Bool.not_eq_true] at hR
      refine ⟨PyDict.set d "recommendations" (Val.list []), ?_, by simp,
        fun hc _ => absurd hA (by simp [hc])⟩
      rw [hskip]
      simp [hR]
  · simp only [Bool.not_eq_true] at hA
    by_cases hRT : PyDict.hasKey d "response_text" = true
    · have hskip : WO.ensureStepFields (Val.dict d) =
          if ¬ PyDict.hasKey d "recommendations" then
            Val.dict (PyDict.set d "recommendations" (Val.list []))
          else Val.dict d := by
        unfold WO.ensureStepFields
        simp [hA, hRT]
      by_cases hR : PyDict.hasKey d "recommendations" = true
      · refine ⟨d, ?_, hR, fun _ hc => absurd hRT (by simp [hc])⟩
        rw [hskip]
        simp [hR]
      · simp only [Bool.not_eq_true] at hR
        refine ⟨PyDict.set d "recommendations" (Val.list []), ?_, by simp,
          fun _ hc => absurd hRT (by simp [hc])⟩
        rw [hskip]
        simp [hR]
    · simp only [Bool.not_eq_true] at hRT
      cases hfind : List.find? (fun f => PyDict.hasKey d f)
          ["output", "result", "text", "content"] with
      | some f =>
        have hp : WO.promoteTextField d ["output", "result", "text", "content"] =
            PyDict.set d "analysis" (PyDict.getD d f (Val.str "")) := by
          rw [promoteTextField_char, hfind]
        have hana : PyDict.get? (PyDict.set d "analysis" (PyDict.getD d f (Val.str "")))
            "analysis" = some (WO.promotedAnalysis d) := by
          rw [PyDict.get?_set_self]
          unfold WO.promotedAnalysis
          rw [hfind]
        by_cases hR : PyDict.hasKey (PyDict.set d "analysis" (PyDict.getD d f (Val.str "")))
            "recommendations" = true
        · refine ⟨PyDict.set d "analysis" (PyDict.getD d f (Val.str "")), ?_, hR,
            fun _ _ => hana⟩
          unfold WO.ensureStepFields
          simp [hA, hRT, hp, hR]
        · simp only [Bool.not_eq_true] at hR
          refine ⟨PyDict.set (PyDict.set d "analysis" (PyDict.getD d f (Val.str "")))
              "recommendations" (Val.list []), ?_, by simp, fun _ _ => ?_⟩
          · unfold WO.ensureStepFields
            simp [hA, hRT, hp, hR]
          · rw [PyDict.get?_set_ne _ _ _ _ (by decide)]
            exact hana
      | none =>
        have hp : WO.promoteTextField d ["output", "result", "text", "content"] = d := by
          rw [promoteTextField_char, hfind]
        have hana : PyDict.get? (PyDict.set d "analysis"
            (Val.str "No detailed analysis available for this step.")) "analysis" =
            some (WO.promotedAnalysis d) := by
          rw [PyDict.get?_set_self]
          unfold WO.promotedAnalysis
          rw [hfind]
        by_cases hR : PyDict.hasKey (PyDict.set d "analysis"
            (Val.str "No detailed analysis available for this step."))
            "recommendations" = true
        · refine ⟨PyDict.set d "analysis"
              (Val.str "No detailed analysis available for this step."), ?_, hR,
            fun _ _ => hana⟩
          unfold WO.ensureStepFields
          simp [hA, hRT, hp, hR]
        · simp only [Bool.not_eq_true] at hR
          refine ⟨PyDict.set (PyDict.set d "analysis"
              (Val.str "No detailed analysis available for this step."))
              "recommendations" (Val.list []), ?_, by simp, fun _ _ => ?_⟩
          · unfold WO.ensureStepFields
            simp [hA, hRT, hp, hR]
          · rw [PyDict.get?_set_ne _ _ _ _ (by decide)]
            exact hana

/-- `formatOutputsForUi` transforms exactly the entry at an
`output_`-prefixed key, by `ensureStepFields`. -/
theorem get?_formatOutputsForUi (result : Dict) (k : String)
    (hk : pyStartsWith k "output_" = true) :
    PyDict.get? (WO.formatOutputsForUi result) k =
      (PyDict.get? result k).map WO.ensureStepFields := by
  induction result with
  | nil => rfl
  | cons p rest ih =>
    obtain ⟨k', v⟩ := p
    cases hks : pyStartsWith k' "output_" with
    | true =>
      simp only [WO.formatOutputsForUi, List.map_cons] at ih ⊢
      rw [if_pos hks]
      by_cases hke : k' = k
      · subst hke
        simp [PyDict.get?]
      · simp [PyDict.get?, hke, ih]
    | false =>
      simp only [WO.formatOutputsForUi, List.map_cons] at ih ⊢
      rw [if_neg (by simp [hks])]
      by_cases hke : k' = k
      · subst hke
        rw [hk] at hks
        exact absurd hks (by simp)
      · simp [PyDict.get?, hke, ih]

/-- A catalog run with initial data free of the `execution_summary` key
always completes. -/
theorem run_workflow_completes (eng : EngineCfg) (st : Nat → ℚ) (ss : Nat → String)
    (wt : String) (info : WorkflowInfo) (initial : Dict)
    (hmem : (wt, info) ∈ workflow_templates)
    (hnokey : PyDict.hasKey initial "execution_summary" = false) :
    ∃ doc, run_workflow eng st ss wt initial = Except.ok doc := by
  obtain ⟨doc, _, hrun, _, _, _, _, _, _, _⟩ := run_workflow_char eng st ss wt info initial
    (find?_workflow wt info hmem) _ []
    (merged_summary_of_no_key eng wt info initial hnokey) rfl
    (workflow_steps_pos wt info hmem)
  exact ⟨doc, hrun⟩

/-! ### Claim theorems -/

/-- C1: the claim says `run_custom_workflow(steps, initialData)` executes
exactly the supplied steps and returns a ResultDocument (for
`["keyword_research", "seo_strategy"]` with `{"a": 1}` in particular).
The code instead builds but ignores its custom `workflow_info` and calls
`run_workflow("custom", ...)`; `"custom"` is not a catalog entry, so every
call — including the claim's own example input — raises the
unknown-workflow `ValueError` and no document is produced. -/
theorem c1_run_custom_workflow_always_fails :
    run_custom_workflow mockEngine oneSec constStamp ["keyword_research", "seo_strategy"]
      [("a", Val.num 1)] =
      Except.error (PyErr.unknownWorkflowType "custom" workflowNames) := rfl

/-- C3 (counterexample): the claim says an empty custom step list fails
with a `NoStepsError`; the code's failure is the unknown-workflow
`ValueError` for the pseudo-name `"custom"` — and the identical error is
raised for a non-empty step list, so the failure is not an emptiness
check at all. -/
theorem c3_counterexample :
    run_custom_workflow mockEngine oneSec constStamp [] [] =
      Except.error (PyErr.unknownWorkflowType "custom" workflowNames) ∧
    run_custom_workflow mockEngine oneSec constStamp ["keyword_research"] [] =
      Except.error (PyErr.unknownWorkflowType "custom" workflowNames) :=
  ⟨rfl, rfl⟩

/-- C3 (amended): `run_custom_workflow` with an empty step list does fail
and produces no ResultDocument, but with the unknown-workflow `ValueError`
for the unconditionally used pseudo-name `"custom"` (carrying the valid
workflow names) — the same failure as for any step list; no dedicated
no-steps error exists in the code. -/
theorem c3_empty_custom_steps_fail_with_unknown_workflow (eng : EngineCfg)
    (st : Nat → ℚ) (ss : Nat → String) (initial_data : Dict) :
    run_custom_workflow eng st ss [] initial_data =
      Except.error (PyErr.unknownWorkflowType "custom" workflowNames) := by
  unfold run_custom_workflow run_workflow
  rw [show workflow_templates.find? (fun p => p.1 = "custom") = none from rfl]

/-- C4: for every workflow name outside the catalog, `run_workflow` raises
the unknown-workflow `ValueError` carrying the list of all valid workflow
names, before executing any step (no partial result exists). -/
theorem c4_unknown_workflow_error (eng : EngineCfg) (st : Nat → ℚ) (ss : Nat → String)
    (wt : String) (initial_data : Dict) (hw : wt ∉ workflowNames) :
    run_workflow eng st ss wt initial_data =
      Except.error (PyErr.unknownWorkflowType wt workflowNames) := by
  have hfind : workflow_templates.find? (fun p => p.1 = wt) = none := by
    rw [List.find?_eq_none]
    intro p hp
    simp only [decide_eq_true_eq]
    intro hcontra
    exact hw (hcontra ▸ List.mem_map_of_mem Prod.fst hp)
  unfold run_workflow
  rw [hfind]

/-- C4 (witness): the spec's own example input. -/
theorem c4_witness :
    run_workflow mockEngine oneSec constStamp "not_a_real_workflow" [] =
      Except.error (PyErr.unknownWorkflowType "not_a_real_workflow" workflowNames) :=
  c4_unknown_workflow_error mockEngine oneSec constStamp "not_a_real_workflow" []
    (by decide)

/-- C5: in every completed catalog run, the context recorded as
`input_<step N>` equals the initial data merged, in execution order, with
the outputs of steps 1..N-1, later keys overwriting earlier ones
(`runCtx` is exactly that left fold of Python-dict merges over the step
prefix, in the resolved order). -/
theorem c5_step_input_is_merged_prefix (eng : EngineCfg) (st : Nat → ℚ) (ss : Nat → String)
    (wt : String) (info : WorkflowInfo) (initial : Dict) (doc : Dict) (n : Nat)
    (hmem : (wt, info) ∈ workflow_templates)
    (hrun : run_workflow eng st ss wt initial = Except.ok doc)
    (hn : n < info.steps.length) :
    PyDict.get? doc ("input_" ++ info.steps[n]) =
      some (Val.dict (runCtx eng initial (info.steps.take n))) := by
  obtain ⟨R2, T, hsteps, hframe⟩ := run_workflow_ok_inv eng st ss wt info initial doc
    (find?_workflow wt info hmem) hrun
  have hnd := workflow_steps_nodup wt info hmem
  obtain ⟨hin, _⟩ := runSteps_recorded eng st ss info.steps 0 _ initial 0 R2 T hsteps n hn
    (not_mem_drop_of_nodup _ hnd n hn)
  rw [hframe _ (input_key_ne_exec _), hin]

/-- C5 (witness): `content_strategy` with `{"a": 1}` — the second step's
recorded input is the initial data merged with the first step's output. -/
theorem c5_witness : ∃ doc,
    run_workflow mockEngine oneSec constStamp "content_strategy" [("a", Val.num 1)] =
      Except.ok doc ∧
    PyDict.get? doc ("input_" ++ "content_gap_analysis") =
      some (Val.dict (runCtx mockEngine [("a", Val.num 1)] ["keyword_research"])) := by
  obtain ⟨doc, hrun⟩ := run_workflow_completes mockEngine oneSec constStamp
    "content_strategy"
    ⟨"Develop a comprehensive content strategy based on keyword research and content gap analysis",
     ["keyword_research", "content_gap_analysis", "seo_strategy"]⟩
    [("a", Val.num 1)] (by decide) rfl
  refine ⟨doc, hrun, ?_⟩
  have h5 := c5_step_input_is_merged_prefix mockEngine oneSec constStamp "content_strategy"
    ⟨"Develop a comprehensive content strategy based on keyword research and content gap analysis",
     ["keyword_research", "content_gap_analysis", "seo_strategy"]⟩
    [("a", Val.num 1)] doc 1 (by decide) hrun (by decide)
  simpa using h5

/-- C10: a top-level initial-data key equal to one of the engine-generated
fields `workflow_type`, `workflow_description` or `api_mode` overwrites
the engine's value in the returned document (line 277's merge runs after
the result is initialized, and those fields are never written again). -/
theorem c10_initial_data_overwrites_engine_fields (eng : EngineCfg) (st : Nat → ℚ)
    (ss : Nat → String) (wt : String) (info : WorkflowInfo) (initial : Dict) (doc : Dict)
    (v : Val) (k : String)
    (hmem : (wt, info) ∈ workflow_templates)
    (hk : k = "workflow_type" ∨ k = "workflow_description" ∨ k = "api_mode")
    (hnd : (PyDict.keys initial).Nodup)
    (hv : PyDict.get? initial k = some v)
    (hrun : run_workflow eng st ss wt initial = Except.ok doc) :
    PyDict.get? doc k = some v := by
  obtain ⟨R2, T, hsteps, hframe⟩ := run_workflow_ok_inv eng st ss wt info initial doc
    (find?_workflow wt info hmem) hrun
  have hkexec : k ≠ "execution_summary" := by
    rcases hk with h | h | h <;> subst h <;> decide
  have hkio : ∀ s ∈ info.steps, k ≠ "input_" ++ s ∧ k ≠ "output_" ++ s := by
    simp only [workflow_templates, List.mem_cons, List.not_mem_nil, or_false] at hmem
    rcases hmem with h | h | h | h <;> (injection h with h1 h2; subst h2) <;>
      (intro s hs; rcases hk with hk | hk | hk <;> subst hk <;> fin_cases hs <;>
        exact ⟨by decide, by decide⟩)
  rw [hframe k hkexec,
    runSteps_frame eng st ss info.steps 0 _ initial 0 R2 T hsteps k hkexec hkio]
  exact PyDict.get?_updateWith_of_mem _ _ _ _ hnd hv

/-- C10 (witness): `technical_audit` with `{"workflow_type": "v"}` returns
a document whose `workflow_type` is `"v"`. -/
theorem c10_witness : ∃ doc,
    run_workflow mockEngine oneSec constStamp "technical_audit"
      [("workflow_type", Val.str "v")] = Except.ok doc ∧
    PyDict.get? doc "workflow_type" = some (Val.str "v") := by
  obtain ⟨doc, hrun⟩ := run_workflow_completes mockEngine oneSec constStamp
    "technical_audit"
    ⟨"Perform a technical SEO audit to identify issues and opportunities for improvement",
     ["technical_seo", "seo_strategy"]⟩
    [("workflow_type", Val.str "v")] (by decide) rfl
  exact ⟨doc, hrun, c10_initial_data_overwrites_engine_fields mockEngine oneSec constStamp
    "technical_audit"
    ⟨"Perform a technical SEO audit to identify issues and opportunities for improvement",
     ["technical_seo", "seo_strategy"]⟩
    [("workflow_type", Val.str "v")] doc (Val.str "v") "workflow_type" (by decide)
    (Or.inl rfl) (by decide) rfl hrun⟩

/-- C2 (counterexample): the claim quantifies over every initial-data
mapping, but when the initial data contains the key `execution_summary`
(here with a scalar value), the line-277 merge replaces the engine's
summary record and the first step's log append raises — the run aborts
even though the failing executor itself was survived. -/
theorem c2_counterexample :
    run_workflow liveFailingEngine oneSec constStamp "technical_audit"
      [("execution_summary", Val.num 0)] =
      Except.error PyErr.executionSummaryAccessError := rfl

/-- C2 (amended): for every catalog workflow and every initial-data
mapping without the top-level key `execution_summary`, a live engine
whose every executor call raises still completes and returns a document
with one `output_<step>` record per step, each carrying the mock
`_api_info` metadata with `mock_data = true` — the per-step fallback in
`call_claude_api` substitutes the mock response and never aborts. -/
theorem c2_executor_failure_degrades_to_mock (eng : EngineCfg) (c : ApiClient)
    (st : Nat → ℚ) (ss : Nat → String) (wt : String) (info : WorkflowInfo) (initial : Dict)
    (hmode : eng.api_mode = "live") (hcli : eng.api_client = some c)
    (hfail : ∀ p s, ∃ m, c.callApi p s = Except.error m)
    (hmem : (wt, info) ∈ workflow_templates)
    (hnokey : PyDict.hasKey initial "execution_summary" = false) :
    ∃ doc, run_workflow eng st ss wt initial = Except.ok doc ∧
      ∀ n (hn : n < info.steps.length),
        ∃ out, PyDict.get? doc ("output_" ++ info.steps[n]) = some (Val.dict out) ∧
          PyDict.get? out "_api_info" = some (Val.dict
            [("model", Val.str CLAUDE_MODEL), ("version", Val.str "mock"),
             ("mock_data", Val.bool true)]) := by
  obtain ⟨doc, esF, hrun, _, _, _, _, _, _, hrec⟩ := run_workflow_char eng st ss wt info
    initial (find?_workflow wt info hmem) _ []
    (merged_summary_of_no_key eng wt info initial hnokey) rfl
    (workflow_steps_pos wt info hmem)
  refine ⟨doc, hrun, fun n hn => ?_⟩
  obtain ⟨_, hout⟩ := hrec n hn
    (not_mem_drop_of_nodup _ (workflow_steps_nodup wt info hmem) n hn)
  refine ⟨_, hout, ?_⟩
  have hmock := callClaudeApi_of_failing eng c hmode hcli hfail
    (formatInputForStep info.steps[n] (runCtx eng initial (info.steps.take n)))
    (createSystemPromptForStep info.steps[n])
  show PyDict.get? (callClaudeApi eng _ _) "_api_info" = _
  rw [hmock]
  exact generateMockResponse_api_info _ _

/-- C2 (witness): a live engine with an always-failing client, on
`technical_audit` with `{"topic": "example.com"}`. -/
theorem c2_witness : ∃ doc,
    run_workflow liveFailingEngine oneSec constStamp "technical_audit"
      [("topic", Val.str "example.com")] = Except.ok doc ∧
    ∀ n (hn : n < (["technical_seo", "seo_strategy"] : List String).length),
      ∃ out, PyDict.get? doc ("output_" ++ (["technical_seo", "seo_strategy"] :
          List String)[n]) = some (Val.dict out) ∧
        PyDict.get? out "_api_info" = some (Val.dict
          [("model", Val.str CLAUDE_MODEL), ("version", Val.str "mock"),
           ("mock_data", Val.bool true)]) :=
  c2_executor_failure_degrades_to_mock liveFailingEngine failingClient oneSec constStamp
    "technical_audit"
    ⟨"Perform a technical SEO audit to identify issues and opportunities for improvement",
     ["technical_seo", "seo_strategy"]⟩
    [("topic", Val.str "example.com")] rfl rfl (fun _ _ => ⟨"API request failed", rfl⟩)
    (by decide) rfl

/-- C6 (counterexample): the claim says every `output_<step>` record
carries an `analysis` field; a record holding only `response_text` (the
parse-fallback shape of `parse_response_content`) passes through the UI
loop with `recommendations` defaulted but no `analysis` at all, because
the promotion only runs when `response_text` is also absent. -/
theorem c6_counterexample :
    WO.formatOutputsForUi [("output_step", Val.dict [("response_text", Val.str "raw prose")])] =
      [("output_step", Val.dict [("response_text", Val.str "raw prose"),
        ("recommendations", Val.list [])])] ∧
    PyDict.hasKey [("response_text", Val.str "raw prose"), ("recommendations", Val.list [])]
      "analysis" = false :=
  ⟨rfl, rfl⟩

/-- C6 (amended): after `_format_for_ui`'s render loop, every
`output_`-prefixed record that is a mapping carries `recommendations`
(defaulting to the empty sequence), and — when it lacked both `analysis`
and `response_text` — carries `analysis` promoted from the first present
field among `output`, `result`, `text`, `content`, else the fixed
placeholder; a plain-string record is wrapped as
`{analysis: s, recommendations: []}`.  Records with `response_text` but
no `analysis` keep no `analysis` field. -/
theorem c6_output_record_normalization :
    (∀ (result : Dict) (k : String) (d : Dict),
      pyStartsWith k "output_" = true →
      PyDict.get? result k = some (Val.dict d) →
      ∃ d', PyDict.get? (WO.formatOutputsForUi result) k = some (Val.dict d') ∧
        PyDict.hasKey d' "recommendations" = true ∧
        (PyDict.hasKey d "analysis" = false → PyDict.hasKey d "response_text" = false →
          PyDict.get? d' "analysis" = some (WO.promotedAnalysis d))) ∧
    (∀ (result : Dict) (k : String) (s : String),
      pyStartsWith k "output_" = true →
      PyDict.get? result k = some (Val.str s) →
      PyDict.get? (WO.formatOutputsForUi result) k =
        some (Val.dict [("analysis", Val.str s), ("recommendations", Val.list [])])) := by
  constructor
  · intro result k d hk hget
    obtain ⟨d', hd', hrec, hana⟩ := ensureStepFields_dict d
    refine ⟨d', ?_, hrec, hana⟩
    rw [get?_formatOutputsForUi result k hk, hget, Option.map_some', hd']
  · intro result k s hk hget
    rw [get?_formatOutputsForUi result k hk, hget]
    rfl

/-- C6 (witness): a record with only an `output` field gets it promoted to
`analysis`, and `recommendations` defaulted. -/
theorem c6_witness :
    ∃ d', PyDict.get? (WO.formatOutputsForUi
        [("output_x", Val.dict [("output", Val.str "some text")])]) "output_x" =
        some (Val.dict d') ∧
      PyDict.hasKey d' "recommendations" = true ∧
      (PyDict.hasKey [("output", Val.str "some text")] "analysis" = false →
        PyDict.hasKey [("output", Val.str "some text")] "response_text" = false →
        PyDict.get? d' "analysis" =
          some (WO.promotedAnalysis [("output", Val.str "some text")])) :=
  c6_output_record_normalization.1
    [("output_x", Val.dict [("output", Val.str "some text")])] "output_x"
    [("output", Val.str "some text")] rfl rfl

/-- C7 (counterexample): an initial-data mapping that smuggles a
conforming `execution_summary` (a dict with a pre-populated
`execution_log` list) completes the run, but the final summary has no
`total_steps_executed` field at all and its log holds one stale entry
plus the two step entries — the claimed equality fails. -/
theorem c7_counterexample : ∃ doc esF lf,
    run_workflow mockEngine oneSec constStamp "technical_audit"
      [("execution_summary", Val.dict [("execution_log", Val.list [Val.str "stale"])])] =
      Except.ok doc ∧
    PyDict.get? doc "execution_summary" = some (Val.dict esF) ∧
    PyDict.get? esF "execution_log" = some (Val.list lf) ∧
    lf.length = 3 ∧
    PyDict.get? esF "total_steps_executed" = none := by
  obtain ⟨doc, esF, hrun, hes, hlog, _, _, hoth, _, _⟩ := run_workflow_char mockEngine
    oneSec constStamp "technical_audit"
    ⟨"Perform a technical SEO audit to identify issues and opportunities for improvement",
     ["technical_seo", "seo_strategy"]⟩
    [("execution_summary", Val.dict [("execution_log", Val.list [Val.str "stale"])])]
    rfl [("execution_log", Val.list [Val.str "stale"])] [Val.str "stale"]
    (PyDict.get?_updateWith_of_mem _ _ _ _ (by decide) rfl) rfl (by decide)
  refine ⟨doc, esF, _, hrun, hes, hlog, ?_, ?_⟩
  · simp [logEntries_length]
  · rw [hoth "total_steps_executed" (by decide) (by decide) (by decide)]
    rfl

/-- C7 (amended): for every catalog workflow and every initial-data
mapping without the top-level key `execution_summary`, a completed run's
summary satisfies the claim: `total_steps_executed` equals the execution
log's length (one entry per executed step), the total time is the sum of
the step durations, and the average is total divided by the step count
(positive for every catalog workflow; the `0` fallback for a zero-step
run is dead code). -/
theorem c7_execution_summary_totals (eng : EngineCfg) (st : Nat → ℚ) (ss : Nat → String)
    (wt : String) (info : WorkflowInfo) (initial : Dict)
    (hmem : (wt, info) ∈ workflow_templates)
    (hnokey : PyDict.hasKey initial "execution_summary" = false) :
    ∃ doc esF lf, run_workflow eng st ss wt initial = Except.ok doc ∧
      PyDict.get? doc "execution_summary" = some (Val.dict esF) ∧
      PyDict.get? esF "execution_log" = some (Val.list lf) ∧
      lf.length = info.steps.length ∧
      PyDict.get? esF "total_steps_executed" = some (Val.num lf.length) ∧
      PyDict.get? esF "total_execution_time_seconds" =
        some (Val.num (sumTimes st 0 info.steps.length)) ∧
      PyDict.get? esF "average_step_time_seconds" =
        some (Val.num (if 0 < info.steps.length then
          sumTimes st 0 info.steps.length / (info.steps.length : ℚ) else 0)) := by
  obtain ⟨doc, esF, hrun, hes, hlog, htot, havg, hoth, _, _⟩ := run_workflow_char eng st ss
    wt info initial (find?_workflow wt info hmem) _ []
    (merged_summary_of_no_key eng wt info initial hnokey) rfl
    (workflow_steps_pos wt info hmem)
  have hlen : ([] ++ logEntries eng st ss info.steps 0 initial).length =
      info.steps.length := by
    simp [logEntries_length]
  refine ⟨doc, esF, _, hrun, hes, hlog, hlen, ?_, htot, ?_⟩
  · rw [hoth "total_steps_executed" (by decide) (by decide) (by decide), hlen]
    rfl
  · rw [if_pos (workflow_steps_pos wt info hmem)]
    exact havg

/-- C7 (witness): `technical_audit` in mock mode with one-second steps. -/
theorem c7_witness : ∃ doc esF lf,
    run_workflow mockEngine oneSec constStamp "technical_audit" [] = Except.ok doc ∧
    PyDict.get? doc "execution_summary" = some (Val.dict esF) ∧
    PyDict.get? esF "execution_log" = some (Val.list lf) ∧
    lf.length = 2 ∧
    PyDict.get? esF "total_steps_executed" = some (Val.num lf.length) ∧
    PyDict.get? esF "total_execution_time_seconds" = some (Val.num (sumTimes oneSec 0 2)) ∧
    PyDict.get? esF "average_step_time_seconds" =
      some (Val.num (if 0 < 2 then sumTimes oneSec 0 2 / (2 : ℚ) else 0)) :=
  c7_execution_summary_totals mockEngine oneSec constStamp "technical_audit"
    ⟨"Perform a technical SEO audit to identify issues and opportunities for improvement",
     ["technical_seo", "seo_strategy"]⟩
    [] (by decide) rfl

set_option maxRecDepth 100000 in
/-- C8: the claim (and the spec) say the log entry records the input
context's key set under `input_data_keys`; the code records
`list(current_data.keys())` only after line 306 has merged the step
output into `current_data`, so the recorded set is the post-merge key
set.  Concretely: `technical_audit` on empty initial data records
`input_technical_seo = {}` (no keys) while the same step's log entry
lists the four keys of the step's own output. -/
theorem c8_log_entry_records_post_merge_keys : ∃ doc esF lf,
    run_workflow mockEngine oneSec constStamp "technical_audit" [] = Except.ok doc ∧
    PyDict.get? doc "execution_summary" = some (Val.dict esF) ∧
    PyDict.get? esF "execution_log" = some (Val.list lf) ∧
    PyDict.get? doc ("input_" ++ "technical_seo") = some (Val.dict []) ∧
    ∃ e, lf.head? = some (Val.dict e) ∧
      PyDict.get? e "input_data_keys" = some (Val.list
        [Val.str "analysis", Val.str "recommendations", Val.str "issues",
         Val.str "_api_info"]) := by
  obtain ⟨doc, esF, hrun, hes, hlog, _, _, _, _, hrec⟩ := run_workflow_char mockEngine
    oneSec constStamp "technical_audit"
    ⟨"Perform a technical SEO audit to identify issues and opportunities for improvement",
     ["technical_seo", "seo_strategy"]⟩
    [] rfl _ [] (merged_summary_of_no_key mockEngine "technical_audit" _ [] rfl) rfl
    (by decide)
  refine ⟨doc, esF, _, hrun, hes, hlog, ?_, ?_⟩
  · have h0 := (hrec 0 (by decide) (by decide)).1
    simpa [runCtx] using h0
  · refine ⟨[("timestamp", Val.str (constStamp 0)), ("agent", Val.str "technical_seo"),
      ("execution_time_seconds", Val.num (oneSec 0)),
      ("input_data_keys", Val.list ((PyDict.keys (PyDict.updateWith []
        (stepOut mockEngine "technical_seo" []))).map Val.str)),
      ("output_data_keys", Val.list ((PyDict.keys
        (stepOut mockEngine "technical_seo" [])).map Val.str))], ?_, ?_⟩
    · show ([] ++ logEntries mockEngine oneSec constStamp ["technical_seo", "seo_strategy"]
        0 []).head? = _
      simp [logEntries, mkLogEntry]
    · rfl

set_option maxRecDepth 1000000 in
set_option maxHeartbeats 4000000 in
/-- C9 (counterexample): the claim says the caller's initial-data mapping
maps the same top-level keys to the same values after the call.  With the
caller's dict `{"execution_summary": <caller's own dict>}` the shallow
line-277 merge aliases the engine's summary slot to the caller's nested
object; the run completes (`Except.ok`) and the caller's mapping now maps
`execution_summary` to a dict holding the engine's log entries and
totals — its deep value changed. -/
theorem c9_counterexample :
    (run_workflow_heap mockEngine oneSec constStamp 100 "technical_audit" 0
      aliasedInitHeap).1 = Except.ok 3 ∧
    readVal (run_workflow_heap mockEngine oneSec constStamp 100 "technical_audit" 0
      aliasedInitHeap).2 100 (HVal.ref 0) ≠
      readVal aliasedInitHeap 100 (HVal.ref 0) := by
  constructor
  · rfl
  · intro hcontra
    have hobs := congrArg (fun x => match x with
      | some (Val.dict d0) =>
        match PyDict.get? d0 "execution_summary" with
        | some (Val.dict es) => PyDict.hasKey es "total_execution_time_seconds"
        | _ => false
      | _ => false) hcontra
    rw [show (fun x => match x with
      | some (Val.dict d0) =>
        match PyDict.get? d0 "execution_summary" with
        | some (Val.dict es) => PyDict.hasKey es "total_execution_time_seconds"
        | _ => false
      | _ => false) (readVal (run_workflow_heap mockEngine oneSec constStamp 100
        "technical_audit" 0 aliasedInitHeap).2 100 (HVal.ref 0)) = true from rfl,
      show (fun x => match x with
      | some (Val.dict d0) =>
        match PyDict.get? d0 "execution_summary" with
        | some (Val.dict es) => PyDict.hasKey es "total_execution_time_seconds"
        | _ => false
      | _ => false) (readVal aliasedInitHeap 100 (HVal.ref 0)) = false from rfl] at hobs
    exact Bool.noConfusion hobs

/-- C9 (amended): `run_workflow` does not mutate the caller's initial-data
object — nor anything reachable from the caller's heap — provided the
initial data has no top-level `execution_summary` key (with that key the
shallow merge aliases the engine's summary writes into the caller's
nested object, as the counterexample shows); and `run_custom_workflow`
always fails before writing to any pre-existing cell. -/
theorem c9_no_mutation_of_caller_heap :
    (∀ (eng : EngineCfg) (st : Nat → ℚ) (ss : Nat → String) (fuel : Nat) (wt : String)
      (aInit : Nat) (h0 : Heap), aInit < h0.length →
      PyDict.hasKey (Heap.read h0 aInit) "execution_summary" = false →
      ∀ a, a < h0.length →
        Heap.read (run_workflow_heap eng st ss fuel wt aInit h0).2 a = Heap.read h0 a) ∧
    (∀ (eng : EngineCfg) (st : Nat → ℚ) (ss : Nat → String) (fuel : Nat)
      (steps : List String) (aInit : Nat) (h0 : Heap),
      (∃ e, (run_custom_workflow_heap eng st ss fuel steps aInit h0).1 =
        Except.error e) ∧
      ∀ a, a < h0.length →
        Heap.read (run_custom_workflow_heap eng st ss fuel steps aInit h0).2 a =
          Heap.read h0 a) := by
  constructor
  · exact run_workflow_heap_frame
  · intro eng st ss fuel steps aInit h0
    constructor
    · exact ⟨PyErr.unknownWorkflowType "custom" workflowNames, rfl⟩
    · intro a ha
      exact (allocDict_extends h0 _).2 a ha

/-- C9 (witness): a run over the caller heap `[{"a": 1}]` leaves the
caller's cell unchanged. -/
theorem c9_witness :
    Heap.read (run_workflow_heap mockEngine oneSec constStamp 100 "technical_audit" 0
      plainInitHeap).2 0 = Heap.read plainInitHeap 0 :=
  c9_no_mutation_of_caller_heap.1 mockEngine oneSec constStamp 100 "technical_audit" 0
    plainInitHeap (by decide) rfl 0 (by decide)

end SeoWorkflow
